import Mathlib

/-!
# ptmx_resolve: the remote-syscall engine and the PTY inspector

A shallow embedding of `mytrace.c`, `ptsname_proxy.c` and `ptmx_resolve.c`
(x86_64 build, `sizeof(long) = 8`).

The traced processes live in a `Machine`; the kernel debugging interface is a
`Kernel` record of oracles (which request is refused, what a single step or a
syscall-stop does to the machine).  The tracer's own state (`errno`, the
sequence of ptrace requests it has issued) is threaded explicitly.
-/

namespace PtmxResolve

/-! ## Data model -/

abbrev Byte := UInt8

/-- The register file `struct user_regs_struct` of `<sys/user.h>` on x86_64;
every field is an unsigned 64-bit quantity kept as a natural number. -/
structure user_regs_struct where
  r15 : Nat
  r14 : Nat
  r13 : Nat
  r12 : Nat
  rbp : Nat
  rbx : Nat
  r11 : Nat
  r10 : Nat
  r9 : Nat
  r8 : Nat
  rax : Nat
  rcx : Nat
  rdx : Nat
  rsi : Nat
  rdi : Nat
  orig_rax : Nat
  rip : Nat
  cs : Nat
  eflags : Nat
  rsp : Nat
  ss : Nat
  fs_base : Nat
  gs_base : Nat
  ds : Nat
  es : Nat
  fs : Nat
  gs : Nat
deriving DecidableEq, Repr

/-- One traced process as ptrace sees it: registers and byte-addressed memory. -/
structure Proc where
  regs : user_regs_struct
  mem : Nat → Byte

/-- All processes by pid, plus whatever kernel-side state is not visible
through ptrace (pending events, scheduling, ...). -/
structure Machine where
  proc : Int → Proc
  hidden : Nat

/-- The value of a C `long` as its object representation: byte `i` for
`i < sizeof(long)`. -/
abbrev Word := Nat → Byte

/-- The ptrace requests the engine issues. -/
inductive Request where
  | GETREGS
  | SETREGS (regs : user_regs_struct)
  | PEEKTEXT (addr : Nat)
  | POKETEXT (addr : Nat) (data : List Byte)
  | SINGLESTEP
  | SYSCALL
  | GETEVENTMSG
  | SETOPTIONS (opt : Nat)
  | ATTACH
  | DETACH
deriving DecidableEq

/-- The kernel side of the debugging interface.
`err pid req m` is the errno with which request `req` on `pid` is refused in
machine state `m` (`0`: the request succeeds).
`step pid m` is `PTRACE_SINGLESTEP` followed by `waitpid`: the wait status and
the machine afterwards.  `sysstop pid m` is `PTRACE_SYSCALL` followed by
`waitpid`.  `eventmsg pid m` is what `PTRACE_GETEVENTMSG` stores.
`attach_wait pid m` is the `waitpid` that follows `PTRACE_ATTACH`: its return
value, the wait status and the machine afterwards. -/
structure Kernel where
  err : Int → Request → Machine → Nat
  step : Int → Machine → Nat × Machine
  sysstop : Int → Machine → Machine
  eventmsg : Int → Machine → Nat
  attach_wait : Int → Machine → Int × Nat × Machine

/-- The tracer: the machine it drives, its `errno`, the ptrace requests
issued so far and the event messages `PTRACE_GETEVENTMSG` has delivered so far
(both newest first). -/
structure State where
  m : Machine
  errno : Int
  log : List (Int × Request)
  msgs : List Nat

/-- The handle `struct mytrace`. -/
structure mytrace where
  pid : Int
  child : Int
deriving DecidableEq, Repr

def sizeof_long : Nat := 8

/-! ## ptrace primitives -/

/-- Replace the memory of process `pid`. -/
def Machine.setMem (m : Machine) (pid : Int) (mem : Nat → Byte) : Machine :=
  { m with proc := fun q => if q = pid then { m.proc pid with mem := mem } else m.proc q }

/-- Replace the registers of process `pid`. -/
def Machine.setRegs (m : Machine) (pid : Int) (regs : user_regs_struct) : Machine :=
  { m with proc := fun q => if q = pid then { m.proc pid with regs := regs } else m.proc q }

/-- The `sizeof(long)` bytes of memory starting at `addr`. -/
def readWord (mem : Nat → Byte) (addr : Nat) : Word :=
  fun i => mem (addr + i)

/-- Memory after storing the `sizeof(long)` bytes of `w` at `addr`. -/
def writeWord (mem : Nat → Byte) (addr : Nat) (w : Word) : Nat → Byte :=
  fun x => if addr ≤ x ∧ x < addr + sizeof_long then w (x - addr) else mem x

/-- The `long` value `-1`. -/
def minusOne : Word := fun _ => 0xFF

/-- `ptrace(PTRACE_PEEKTEXT, pid, addr, 0)`.  On success the word at `addr`
is returned and, as the C library does for the PEEK requests, `errno` is
cleared; on failure `-1` is returned and `errno` is set. -/
def ptrace_peektext (K : Kernel) (pid : Int) (addr : Nat) (s : State) : Word × State :=
  let s1 := { s with log := (pid, Request.PEEKTEXT addr) :: s.log }
  let e := K.err pid (Request.PEEKTEXT addr) s.m
  if e = 0 then (readWord (s.m.proc pid).mem addr, { s1 with errno := 0 })
  else (minusOne, { s1 with errno := (e : Int) })

/-- `ptrace(PTRACE_POKETEXT, pid, addr, data)`: `0` or `-1`. -/
def ptrace_poketext (K : Kernel) (pid : Int) (addr : Nat) (data : Word) (s : State) :
    Int × State :=
  let req := Request.POKETEXT addr ((List.range sizeof_long).map data)
  let s1 := { s with log := (pid, req) :: s.log }
  let e := K.err pid req s.m
  if e = 0 then (0, { s1 with m := s.m.setMem pid (writeWord (s.m.proc pid).mem addr data) })
  else (-1, { s1 with errno := (e : Int) })

/-! ## Cross-address-space memory copy -/

/-- `memcpy(dest, (char *)&data + off, todo)` seen from the destination: the
`todo` bytes of `data` from offset `off`. -/
def wordBytes (data : Word) (off todo : Nat) : List Byte :=
  (List.range todo).map (fun i => data (off + i))

/-- `memcpy((char *)&data + off, src, todo)`: `data` with `todo` bytes of
`src` laid over it from offset `off`. -/
def overlay (data : Word) (off : Nat) (src : List Byte) (todo : Nat) : Word :=
  fun i => if off ≤ i ∧ i < off + todo then src.getD (i - off) 0 else data i

/-- The `while (n)` loop of `memcpy_from_target`; `out` is what has been
stored through `dest` so far.  Each round consumes at least one byte, so the
first argument, started at `n`, reaches zero no earlier than `n` does. -/
def memcpy_from_target_loop (K : Kernel) (t : mytrace) :
    Nat → List Byte → Nat → Nat → State → Int × List Byte × State
  | 0, out, _, _, s => (0, out, s)
  | k + 1, out, src, n, s =>
    if n = 0 then (0, out, s)
    else
      let align := sizeof_long - 1
      let todo := sizeof_long - (src &&& align)
      let todo := if n < todo then n else todo
      let r := ptrace_peektext K t.pid (src - (src &&& align)) s
      if r.2.errno ≠ 0 then (-1, out, r.2)
      else
        memcpy_from_target_loop K t k (out ++ wordBytes r.1 (src &&& align) todo)
          (src + todo) (n - todo) r.2

/-- `memcpy_from_target(t, dest, src, n)`: the return value, the bytes stored
at `dest` (in order), and the tracer state. -/
def memcpy_from_target (K : Kernel) (t : mytrace) (src n : Nat) (s : State) :
    Int × List Byte × State :=
  memcpy_from_target_loop K t n [] src n s

/-- The `while (n)` loop of `memcpy_into_target`.  `data` is uninitialised
when the whole word is about to be overwritten. -/
def memcpy_into_target_loop (K : Kernel) (t : mytrace) :
    Nat → Nat → List Byte → Nat → State → Int × State
  | 0, _, _, _, s => (0, s)
  | k + 1, dest, src, n, s =>
    if n = 0 then (0, s)
    else
      let align := sizeof_long - 1
      let todo := sizeof_long - (dest &&& align)
      let todo := if n < todo then n else todo
      let r : Word × State :=
        if todo ≠ sizeof_long then ptrace_peektext K t.pid (dest - (dest &&& align)) s
        else (fun _ => 0, s)
      if todo ≠ sizeof_long ∧ r.2.errno ≠ 0 then (-1, r.2)
      else
        let data := overlay r.1 (dest &&& align) src todo
        let p := ptrace_poketext K t.pid (dest - (dest &&& align)) data r.2
        if p.1 < 0 then (-1, p.2)
        else memcpy_into_target_loop K t k (dest + todo) (src.drop todo) (n - todo) p.2

/-- `memcpy_into_target(t, dest, src, n)`. -/
def memcpy_into_target (K : Kernel) (t : mytrace) (dest : Nat) (src : List Byte) (n : Nat)
    (s : State) : Int × State :=
  memcpy_into_target_loop K t n dest src n s

/-- Number of `PTRACE_PEEKTEXT` requests in a request log. -/
def countPeeks : List (Int × Request) → Nat
  | [] => 0
  | (_, Request.PEEKTEXT _) :: l => countPeeks l + 1
  | _ :: l => countPeeks l

/-- The `n` bytes of memory starting at `addr`. -/
def memBytes (mem : Nat → Byte) (addr n : Nat) : List Byte :=
  (List.range n).map (fun i => mem (addr + i))

/-! ## Machine integers -/

/-- An unsigned 64-bit register read as a signed `long`. -/
def toLong (x : Nat) : Int :=
  if x % 2 ^ 64 < 2 ^ 63 then ((x % 2 ^ 64 : Nat) : Int) else ((x % 2 ^ 64 : Nat) : Int) - 2 ^ 64

/-- A `long` stored into an unsigned 64-bit register. -/
def ofLong (v : Int) : Nat := (v % 2 ^ 64).toNat

/-- Conversion to a C `int` (wrap-around modulo `2^32`). -/
def toInt32 (v : Int) : Int := (v + 2 ^ 31) % 2 ^ 32 - 2 ^ 31

/-- The result of `ptrace(PTRACE_PEEKTEXT, ...) & 0xffff`: the two lowest bytes of
the word, little-endian. -/
def low16 (w : Word) : Nat := (w 0).toNat + 256 * (w 1).toNat

/-! ## Constants of `mytrace.c` and of the system headers -/

def SYSCALL_X86 : Nat := 0x80cd
def SYSCALL_X86_NEW : Nat := 0xf3eb
def SYSENTER : Nat := 0x340f
def SYSCALL_AMD64 : Nat := 0x050f

def MYCALL_OPEN : Int := 0
def MYCALL_CLOSE : Int := 1
def MYCALL_WRITE : Int := 2
def MYCALL_DUP2 : Int := 3
def MYCALL_SETPGID : Int := 4
def MYCALL_SETSID : Int := 5
def MYCALL_KILL : Int := 6
def MYCALL_FORK : Int := 7
def MYCALL_EXIT : Int := 8
def MYCALL_EXECVE : Int := 9
def MYCALL_IOCTL : Int := 10

/-- The i386 system-call numbers of the Linux header `unistd_32.h` (a system
header, outside the repository), by call name, in numeric order. -/
def unistd_32 : List (String × Nat) :=
  [("exit", 1), ("fork", 2), ("write", 4), ("open", 5), ("close", 6), ("execve", 11),
   ("kill", 37), ("ioctl", 54), ("setpgid", 57), ("dup2", 63), ("setsid", 66)]

/-- The x86_64 system-call numbers of the Linux header `unistd_64.h` (a system
header, outside the repository), by call name, in numeric order. -/
def unistd_64 : List (String × Nat) :=
  [("write", 1), ("open", 2), ("close", 3), ("ioctl", 16), ("dup2", 33), ("fork", 57),
   ("execve", 59), ("exit", 60), ("kill", 62), ("setpgid", 109), ("setsid", 112)]

/-- The macro `SYS_<name>` of `<sys/syscall.h>` in the x86_64 build. -/
def SYS (name : String) : Nat := (unistd_64.lookup name).getD 0

def syscalls32 : List Nat := [5, 6, 4, 63, 57, 66, 37, 2, 1, 11, 54]

def syscalls64 : List Nat :=
  [SYS "open", SYS "close", SYS "write", SYS "dup2", SYS "setpgid", SYS "setsid",
   SYS "kill", SYS "fork", SYS "exit", SYS "execve", SYS "ioctl"]

def syscallnames : List String :=
  ["open", "close", "write", "dup2", "setpgid", "setsid", "kill", "fork",
   "exit", "execve", "ioctl"]

def SIGTRAP : Nat := 5
def PTRACE_EVENT_FORK : Nat := 1
def PTRACE_EVENT_EXEC : Nat := 4
def PTRACE_EVENT_EXIT : Nat := 6
def PTRACE_O_TRACEFORK : Nat := 0x02
def PTRACE_O_TRACEEXEC : Nat := 0x10
def PTRACE_O_TRACEEXIT : Nat := 0x40

/-- `WIFEXITED(status)`. -/
def WIFEXITED (status : Nat) : Bool := status &&& 0x7f == 0

/-- `WIFSTOPPED(status)`. -/
def WIFSTOPPED (status : Nat) : Bool := status &&& 0xff == 0x7f

/-- `WSTOPSIG(status)`. -/
def WSTOPSIG (status : Nat) : Nat := (status &&& 0xff00) >>> 8

def TIOCGPTN : Int := 0x80045430
def TIOCSCTTY : Int := 0x540E

/-- `sizeof(int)`. -/
def sizeof_int : Nat := 4

/-- `ptrace(PTRACE_GETREGS, pid, NULL, &regs) < 0`: `none` when the call fails. -/
def ptrace_getregs (K : Kernel) (pid : Int) (s : State) : Option user_regs_struct × State :=
  let s1 := { s with log := (pid, Request.GETREGS) :: s.log }
  let e := K.err pid Request.GETREGS s.m
  if e = 0 then (some (s.m.proc pid).regs, s1) else (none, { s1 with errno := (e : Int) })

/-- `ptrace(PTRACE_SETREGS, pid, NULL, &regs) < 0`: `false` when the call fails. -/
def ptrace_setregs (K : Kernel) (pid : Int) (regs : user_regs_struct) (s : State) :
    Bool × State :=
  let s1 := { s with log := (pid, Request.SETREGS regs) :: s.log }
  let e := K.err pid (Request.SETREGS regs) s.m
  if e = 0 then (true, { s1 with m := s.m.setRegs pid regs })
  else (false, { s1 with errno := (e : Int) })

/-- `ptrace(PTRACE_SYSCALL, pid, NULL, 0)`; when it succeeds the following
`waitpid(pid, NULL, 0)` is part of the step. -/
def ptrace_syscall (K : Kernel) (pid : Int) (s : State) : Bool × State :=
  let s1 := { s with log := (pid, Request.SYSCALL) :: s.log }
  let e := K.err pid Request.SYSCALL s.m
  if e = 0 then (true, { s1 with m := K.sysstop pid s.m })
  else (false, { s1 with errno := (e : Int) })

/-- `ptrace(PTRACE_SINGLESTEP, pid, NULL, NULL)`; when it succeeds the following
`waitpid(pid, &status, 0)` is part of the step and `status` (an `int`, kept as
its 32-bit pattern) is returned. -/
def ptrace_singlestep (K : Kernel) (pid : Int) (s : State) : Option Nat × State :=
  let s1 := { s with log := (pid, Request.SINGLESTEP) :: s.log }
  let e := K.err pid Request.SINGLESTEP s.m
  if e = 0 then (some ((K.step pid s.m).1 % 2 ^ 32), { s1 with m := (K.step pid s.m).2 })
  else (none, { s1 with errno := (e : Int) })

/-- `ptrace(PTRACE_GETEVENTMSG, pid, 0, &msg)`. -/
def ptrace_geteventmsg (K : Kernel) (pid : Int) (s : State) : Option Nat × State :=
  let s1 := { s with log := (pid, Request.GETEVENTMSG) :: s.log }
  let e := K.err pid Request.GETEVENTMSG s.m
  if e = 0 then (some (K.eventmsg pid s.m), { s1 with msgs := K.eventmsg pid s.m :: s.msgs })
  else (none, { s1 with errno := (e : Int) })

/-- `ptrace(PTRACE_SETOPTIONS, pid, NULL, opt)`; the engine ignores its result. -/
def ptrace_setoptions (pid : Int) (opt : Nat) (s : State) : State :=
  { s with log := (pid, Request.SETOPTIONS opt) :: s.log }

/-! ## Remote system call -/

/-- The first `for (;;)` of `remote_syscall`: read the registers and look at
the two bytes before the instruction pointer until a system-call instruction
is found.  Result `none`: the loop has not ended within the given number of
rounds.  Inner `none`: `remote_syscall` returns `-1`.  Otherwise `oldregs`,
`oinst` and `bits`. -/
def resync (K : Kernel) (t : mytrace) :
    Nat → State → Option (Option (user_regs_struct × Nat × Nat) × State)
  | 0, _ => none
  | k + 1, s =>
    match ptrace_getregs K t.pid s with
    | (none, s1) => some (none, s1)
    | (some oldregs, s1) =>
      let r := ptrace_peektext K t.pid ((oldregs.rip + 2 ^ 64 - 2) % 2 ^ 64) s1
      let oinst := low16 r.1
      if oinst = SYSCALL_AMD64 then some (some (oldregs, oinst, 64), r.2)
      else if oinst = SYSCALL_X86 ∨ oinst = SYSCALL_X86_NEW then
        some (some (oldregs, oinst, 32), r.2)
      else
        match ptrace_syscall K t.pid r.2 with
        | (false, s2) => some (none, s2)
        | (true, s2) =>
          match ptrace_syscall K t.pid s2 with
          | (false, s3) => some (none, s3)
          | (true, s3) => resync K t k s3

/-- The loop "get back to sysenter": `offset` is incremented until the two
bytes at `RIP - offset` are `0F 34`. -/
def sysenter_scan (K : Kernel) (t : mytrace) (rip : Nat) :
    Nat → Nat → State → Option (Nat × State)
  | 0, _, _ => none
  | k + 1, offset, s =>
    let r := ptrace_peektext K t.pid ((rip + 2 ^ 64 - offset) % 2 ^ 64) s
    if low16 r.1 ≠ SYSENTER then sysenter_scan K t rip k (offset + 1) r.2
    else some (offset, r.2)

/-- The register set that `remote_syscall` installs before single-stepping. -/
def injection (oldregs : user_regs_struct) (offset bits : Nat) (call arg1 arg2 arg3 : Int) :
    user_regs_struct :=
  let regs := oldregs
  let regs := { regs with rip := (regs.rip + 2 ^ 64 - offset) % 2 ^ 64 }
  if bits = 64 then
    { regs with rax := syscalls64.getD call.toNat 0, rdi := ofLong arg1, rsi := ofLong arg2,
                rdx := ofLong arg3 }
  else
    { regs with rax := syscalls32.getD call.toNat 0, rbx := ofLong arg1, rcx := ofLong arg2,
                rdx := ofLong arg3 }

/-- How the single-step loop ends: `remote_syscall` returns at once, or the
loop is left by `break`. -/
inductive StepEnd where
  | returned (v : Int)
  | trapped
deriving DecidableEq, Repr

/-- The second `for (;;)` of `remote_syscall`. -/
def singlestep_loop (K : Kernel) :
    Nat → mytrace → State → Option (StepEnd × mytrace × State)
  | 0, _, _ => none
  | k + 1, t, s =>
    match ptrace_singlestep K t.pid s with
    | (none, s1) => some (StepEnd.returned (-1), t, s1)
    | (some status, s1) =>
      if WIFEXITED status then some (StepEnd.returned 0, t, s1)
      else if !WIFSTOPPED status || WSTOPSIG status != SIGTRAP then singlestep_loop K k t s1
      else
        let event := (status >>> 16) &&& 0xffff
        if event = PTRACE_EVENT_FORK then
          match ptrace_geteventmsg K t.pid s1 with
          | (none, s2) => some (StepEnd.returned (-1), t, s2)
          | (some msg, s2) => singlestep_loop K k { t with child := toInt32 (msg : Int) } s2
        else if event = PTRACE_EVENT_EXIT then some (StepEnd.returned 0, t, s1)
        else if event = PTRACE_EVENT_EXEC then some (StepEnd.returned 0, t, s1)
        else some (StepEnd.trapped, t, s1)

/-- The end of `remote_syscall`: read the resulting registers, put `oldregs`
back, decode the return-value register. -/
def capture (K : Kernel) (t : mytrace) (oldregs : user_regs_struct) (s : State) : Int × State :=
  match ptrace_getregs K t.pid s with
  | (none, s1) => (-1, s1)
  | (some regs, s1) =>
    match ptrace_setregs K t.pid oldregs s1 with
    | (false, s2) => (-1, s2)
    | (true, s2) =>
      if toLong regs.rax < 0 then (-1, { s2 with errno := toInt32 (-toLong regs.rax) })
      else (toLong regs.rax, s2)

/-- The part of `remote_syscall` from the first `for (;;)` to the first
`PTRACE_SETREGS`: find the system-call instruction, rewind to it and install
the injection registers.  Result `none`: a loop did not end within `fuel`
rounds.  Inner `none`: `remote_syscall` returns `-1`.  Otherwise the value of
`oldregs` kept for the restore. -/
def install (K : Kernel) (fuel : Nat) (t : mytrace) (call arg1 arg2 arg3 : Int) (s : State) :
    Option (Option user_regs_struct × State) :=
  match resync K t fuel s with
  | none => none
  | some (none, s1) => some (none, s1)
  | some (some (oldregs, oinst, bits), s1) =>
    let scan : Option (Nat × user_regs_struct × State) :=
      if oinst = SYSCALL_X86_NEW then
        match sysenter_scan K t oldregs.rip fuel 2 s1 with
        | none => none
        | some (offset, s2) => some (offset, { oldregs with rbp := oldregs.rsp }, s2)
      else some (2, oldregs, s1)
    match scan with
    | none => none
    | some (offset, oldregs, s2) =>
      let regs := injection oldregs offset bits call arg1 arg2 arg3
      match ptrace_setregs K t.pid regs s2 with
      | (false, s3) => some (none, s3)
      | (true, s3) => some (some oldregs, s3)

/-- `remote_syscall(t, call, arg1, arg2, arg3)`.  Each of its three loops may
run for at most `fuel` rounds; `none` means that one of them did not end.
The handle is returned because the fork event stores into `t->child`. -/
def remote_syscall (K : Kernel) (fuel : Nat) (t : mytrace) (call arg1 arg2 arg3 : Int)
    (s : State) : Option (Int × mytrace × State) :=
  if call < 0 ∨ call ≥ (syscallnames.length : Int) then some (-1, t, s)
  else
    match install K fuel t call arg1 arg2 arg3 s with
    | none => none
    | some (none, s3) => some (-1, t, s3)
    | some (some oldregs, s3) =>
      match singlestep_loop K fuel t s3 with
      | none => none
      | some (StepEnd.returned v, t1, s4) => some (v, t1, s4)
      | some (StepEnd.trapped, t1, s4) =>
        let r := capture K t1 oldregs s4
        some (r.1, t1, r.2)

/-! ## Handles -/

/-- `mytrace_attach(pid)`: `none` is the `NULL` result. -/
def mytrace_attach (K : Kernel) (pid : Int) (s : State) : Option mytrace × State :=
  let p := toInt32 pid
  let s1 := { s with log := (p, Request.ATTACH) :: s.log }
  let e := K.err p Request.ATTACH s.m
  if e ≠ 0 then (none, { s1 with errno := (e : Int) })
  else
    let w := K.attach_wait p s.m
    let s2 := { s1 with m := w.2.2 }
    if w.1 < 0 then (none, s2)
    else if !WIFSTOPPED (w.2.1 % 2 ^ 32) then
      (none, { s2 with log := (p, Request.DETACH) :: s2.log })
    else (some { pid := p, child := 0 }, s2)

/-- `mytrace_detach(t)`. -/
def mytrace_detach (t : mytrace) (s : State) : Int × State :=
  (0, { s with log := (t.pid, Request.DETACH) :: s.log })

/-- `mytrace_fork(t)`: the new handle, the parent handle (whose `child` field
the injection may have written) and the tracer state. -/
def mytrace_fork (K : Kernel) (fuel : Nat) (t : mytrace) (s : State) :
    Option (mytrace × mytrace × State) :=
  let s1 := ptrace_setoptions t.pid PTRACE_O_TRACEFORK s
  match remote_syscall K fuel t MYCALL_FORK 0 0 0 s1 with
  | none => none
  | some (_, t1, s2) => some ({ pid := t1.child, child := 0 }, t1, s2)

/-! ## High-level remote operations -/

/-- The four bytes of an `int`, little-endian. -/
def int_bytes (v : Int) : List Byte :=
  (List.range sizeof_int).map (fun i => UInt8.ofNat ((v % 2 ^ 32).toNat / 256 ^ i % 256))

/-- The `int` held in four little-endian bytes. -/
def bytes_int (b : List Byte) : Int :=
  toInt32 (((b.getD 0 0).toNat + 256 * (b.getD 1 0).toNat + 65536 * (b.getD 2 0).toNat
    + 16777216 * (b.getD 3 0).toNat : Nat) : Int)

/-- A caller's buffer after `memcpy_from_target` has stored `copied` at its start. -/
def stored (copied old : List Byte) : List Byte := copied ++ old.drop copied.length

/-- `mytrace_TIOCGPTN(t, fd, pts)`; `pts` is the value of `*pts` on entry, the
second component of the result its value on return. -/
def mytrace_TIOCGPTN (K : Kernel) (fuel : Nat) (t : mytrace) (fd : Int) (pts : Int)
    (s : State) : Option (Int × Int × mytrace × State) :=
  let size := sizeof_int
  match ptrace_getregs K t.pid s with
  | (none, s1) => some (-1, pts, t, s1)
  | (some regs, s1) =>
    let b := memcpy_from_target K t regs.rsp size s1
    if b.1 < 0 then some (-1, pts, t, b.2.2)
    else
      match remote_syscall K fuel t MYCALL_IOCTL fd TIOCGPTN (toLong regs.rsp) b.2.2 with
      | none => none
      | some (ret, t1, s2) =>
        let err := s2.errno
        let o := memcpy_from_target K t1 regs.rsp size s2
        let r := memcpy_into_target K t1 regs.rsp b.2.1 size o.2.2
        some (toInt32 ret, bytes_int (stored o.2.1 (int_bytes pts)), t1, { r.2 with errno := err })

/-- What the inspector reads from procfs: the names `readdir` yields for
`/proc/<pid>/fd` (in its order), the result of `lstat` on
`/proc/<pid>/fd/<name>`, and the text `readlink` returns for it (`none`: the
call fails). -/
structure Procfs where
  readdir : Int → List String
  lstat : Int → String → Int
  readlink : Int → String → Option String

def PATH_MAX : Nat := 4096
def MAX_PTYS : Nat := 4096

/-- `strstr(haystack, needle)`: the part of `haystack` from the first
occurrence of `needle` on, `none` for `NULL`. -/
def strstr (haystack needle : List Char) : Option (List Char) :=
  if needle.isPrefixOf haystack then some haystack
  else
    match haystack with
    | [] => none
    | _ :: rest => strstr rest needle

/-- The string in `linkname` after `readlink(fdstr, linkname, PATH_MAX)` into
the zeroed buffer and the store of NUL at `PATH_MAX - 1`. -/
def linkname_of (link : Option String) : List Char :=
  ((link.getD "").toList).take (PATH_MAX - 1)

/-- The test `!linkname || !strstr("/dev/ptmx", linkname) || strlen(linkname) == 0`
under which an entry is passed over (`linkname` is an array, never `NULL`). -/
def not_a_pty (linkname : List Char) : Bool :=
  (strstr "/dev/ptmx".toList linkname).isNone || linkname.length == 0

/-- The C `isspace`. -/
def isspace (c : Char) : Bool :=
  c.toNat == 32 || (9 ≤ c.toNat && c.toNat ≤ 13)

/-- The run of decimal digits at the start of a string, as a number. -/
def digits_value : List Char → Int → Int
  | [], acc => acc
  | c :: cs, acc =>
    if 48 ≤ c.toNat ∧ c.toNat ≤ 57 then digits_value cs (10 * acc + ((c.toNat - 48 : Nat) : Int))
    else acc

/-- The signed decimal number at the start of a string (white space skipped). -/
def parse_long (str : String) : Int :=
  let cs := str.toList.dropWhile isspace
  match cs with
  | [] => 0
  | c :: rest =>
    if c.toNat = 45 then -(digits_value rest 0)
    else if c.toNat = 43 then digits_value rest 0
    else digits_value cs 0

/-- `atoi(str)`. -/
def atoi (str : String) : Int := toInt32 (parse_long str)

/-- `strtol(str, NULL, 10)` with the `errno` it leaves (`ERANGE` is 34). -/
def strtol (str : String) (errno : Int) : Int × Int :=
  let v := parse_long str
  if v < -2 ^ 63 then (-2 ^ 63, 34)
  else if 2 ^ 63 ≤ v then (2 ^ 63 - 1, 34)
  else (v, errno)

/-- `ptsname_by_fd(pid, target_fd, pts_id)`; `pts_id` is the value of
`*pts_id` on entry.  The result is the return value, `*pts_id` on return and
the tracer state; `none`: an injected call did not end. -/
def ptsname_by_fd (K : Kernel) (P : Procfs) (fuel : Nat) (pid target_fd pts_id : Int)
    (s : State) : Option (Int × Int × State) :=
  match mytrace_attach K pid s with
  | (none, s1) => some (-1, pts_id, s1)
  | (some parent, s1) =>
    match mytrace_fork K fuel parent s1 with
    | none => none
    | some (child, parent, s2) =>
      if P.lstat pid (toString target_fd) < 0 then
        some (-1, pts_id, (mytrace_detach parent s2).2)
      else
        let linkname := linkname_of (P.readlink pid (toString target_fd))
        if not_a_pty linkname then some (-1, pts_id, (mytrace_detach parent s2).2)
        else
          let pts_number : Int := -1
          match mytrace_TIOCGPTN K fuel child target_fd pts_number s2 with
          | none => none
          | some (ret, pts_number, _, s3) =>
            let pts_id := if ret < 0 then pts_id else pts_number
            some (ret, pts_id, (mytrace_detach parent s3).2)

/-- The state of the `while` loop of `ptsname_list_all`: the array `*pts_ids`,
`*num_ids`, `ret`, and two records kept for the proofs: the indices at which
the array was stored into and the `(ret, pts_number)` of every
`mytrace_TIOCGPTN` call made (both oldest first). -/
structure Scan where
  pts_ids : Nat → Int
  num_ids : Int
  ret : Int
  stores : List Int
  probes : List (Int × Int)

/-- The `while ((fddirent = readdir(fddir)) && *num_ids < MAX_PTYS)` loop over
the entries still to be read.  `none`: an injected call did not end, or a
store below index 0. -/
def scan_loop (K : Kernel) (P : Procfs) (fuel : Nat) (pid : Int) :
    List String → mytrace → Scan → State → Option (Scan × State)
  | [], _, a, s => some (a, s)
  | d_name :: rest, child, a, s =>
    if ¬ (a.num_ids < (MAX_PTYS : Int)) then some (a, s)
    else
      let fd := atoi d_name
      if P.lstat pid d_name < 0 then scan_loop K P fuel pid rest child a s
      else
        let linkname := linkname_of (P.readlink pid d_name)
        if not_a_pty linkname then scan_loop K P fuel pid rest child a s
        else
          let pts_number : Int := -1
          match mytrace_TIOCGPTN K fuel child fd pts_number s with
          | none => none
          | some (ret, pts_number, child1, s1) =>
            if ret < 0 then
              scan_loop K P fuel pid rest child1
                { a with ret := ret, probes := a.probes ++ [(ret, pts_number)] } s1
            else if a.num_ids < 0 then none
            else
              scan_loop K P fuel pid rest child1
                { pts_ids := fun i => if i = a.num_ids.toNat then pts_number else a.pts_ids i,
                  num_ids := a.num_ids + 1,
                  ret := ret,
                  stores := a.stores ++ [a.num_ids],
                  probes := a.probes ++ [(ret, pts_number)] } s1

/-- `ptsname_list_all(pid, pts_ids, num_ids)` with both pointers valid;
`num_ids` is `*num_ids` on entry.  In the result `pts_ids` is `none` when no
array was allocated. -/
def ptsname_list_all (K : Kernel) (P : Procfs) (fuel : Nat) (pid num_ids : Int) (s : State) :
    Option (Int × Option (Nat → Int) × Scan × State) :=
  match mytrace_attach K pid s with
  | (none, s1) =>
    some (-1, none, { pts_ids := fun _ => 0, num_ids := num_ids, ret := -1, stores := [],
                      probes := [] }, s1)
  | (some parent, s1) =>
    match mytrace_fork K fuel parent s1 with
    | none => none
    | some (child, parent, s2) =>
      match scan_loop K P fuel pid (P.readdir pid) child
          { pts_ids := fun _ => 0, num_ids := num_ids, ret := -1, stores := [], probes := [] }
          s2 with
      | none => none
      | some (a, s3) => some (a.ret, some a.pts_ids, a, (mytrace_detach parent s3).2)

/-- The scan of `ptsname_list_all` without the test `*num_ids < MAX_PTYS` and
without the array: the `pts_number` of every entry that passes the `lstat` and
the link-text test of the code (`not_a_pty`) and whose `mytrace_TIOCGPTN`
call returns `>= 0`, in the order procfs yields them.  `none`: one of the
calls does not end. -/
def scan_uncut (K : Kernel) (P : Procfs) (fuel : Nat) (pid : Int) :
    List String → mytrace → State → Option (List Int)
  | [], _, _ => some []
  | d_name :: rest, child, s =>
    if P.lstat pid d_name < 0 then scan_uncut K P fuel pid rest child s
    else if not_a_pty (linkname_of (P.readlink pid d_name)) then
      scan_uncut K P fuel pid rest child s
    else
      match mytrace_TIOCGPTN K fuel child (atoi d_name) (-1) s with
      | none => none
      | some (ret, pts_number, child1, s1) =>
        match scan_uncut K P fuel pid rest child1 s1 with
        | none => none
        | some l => some (if ret < 0 then l else pts_number :: l)

/-- Spec side, the candidate test as the specification words it: the link
text is non-empty and contains the multiplexer path `/dev/ptmx`. -/
def spec_candidate (linkname : List Char) : Bool :=
  linkname.length != 0 && (strstr linkname "/dev/ptmx".toList).isSome

/-- Spec side of the list-all claim: the subordinate indices of all the
candidate descriptors (entries that pass `lstat` and whose link text is a
`spec_candidate`) whose `mytrace_TIOCGPTN` call returns `>= 0`, in the order
procfs yields them, without any cut-off.  `none`: one of the calls does not
end. -/
def discovered (K : Kernel) (P : Procfs) (fuel : Nat) (pid : Int) :
    List String → mytrace → State → Option (List Int)
  | [], _, _ => some []
  | d_name :: rest, child, s =>
    if P.lstat pid d_name < 0 then discovered K P fuel pid rest child s
    else if !(spec_candidate (linkname_of (P.readlink pid d_name))) then
      discovered K P fuel pid rest child s
    else
      match mytrace_TIOCGPTN K fuel child (atoi d_name) (-1) s with
      | none => none
      | some (ret, pts_number, child1, s1) =>
        match discovered K P fuel pid rest child1 s1 with
        | none => none
        | some l => some (if ret < 0 then l else pts_number :: l)

/-- The line printed for one discovered device. -/
def result_line (pid pts : Int) : String :=
  "target_pid=" ++ toString pid ++ " pts=/dev/pts/" ++ toString pts

/-- The summary line of the list branch. -/
def summary_line (num_ids pid : Int) : String :=
  "There were " ++ toString num_ids ++ " /dev/pts devices discovered for pid=" ++ toString pid

/-- The line printed by the two-argument form. -/
def fd_line (pid target_fd pts_id : Int) : String :=
  "target_pid=" ++ toString pid ++ " target_fd=" ++ toString target_fd ++ " pts=/dev/pts/"
    ++ toString pts_id

def usage_line : String :=
  "Usage: ptmx_resolve $PID [<optional> target file descriptor ID]"

/-- The loop `for (; num_ids > 0; num_ids--)` of `main`, printing
`ids_array[num_ids - 1]`. -/
def print_loop (pid : Int) (ids_array : Nat → Int) : Nat → List String
  | 0 => []
  | n + 1 => result_line pid (ids_array n) :: print_loop pid ids_array n

/-- `main(argc, argv)` with `argv` including the program name: the value
returned (or passed to `exit`), the lines written to standard output and the
tracer state. -/
def main (K : Kernel) (P : Procfs) (fuel : Nat) (argv : List String) (s : State) :
    Option (Int × List String × State) :=
  let pts_id : Int := -1
  match argv with
  | [] => some (1, [usage_line], s)
  | [_] => some (1, [usage_line], s)
  | _ :: a1 :: more =>
    let p := strtol a1 s.errno
    let pid := p.1
    let s := { s with errno := p.2 }
    if s.errno ≠ 0 then some (1, [usage_line], s)
    else
      match more with
      | a2 :: _ =>
        let q := strtol a2 s.errno
        let target_fd := toInt32 q.1
        let s := { s with errno := q.2 }
        if s.errno ≠ 0 then some (1, [usage_line], s)
        else
          match ptsname_by_fd K P fuel pid target_fd pts_id s with
          | none => none
          | some (ret, pts_id, s1) => some (ret, [fd_line pid target_fd pts_id], s1)
      | [] =>
        match ptsname_list_all K P fuel pid 0 s with
        | none => none
        | some (ret, ids_array, a, s1) =>
          some (ret,
            summary_line a.num_ids pid
              :: print_loop pid (ids_array.getD (fun _ => 0)) a.num_ids.toNat,
            s1)

/-- The wait status seen after a single step of `pid` from tracer state `s`. -/
def wait_status (K : Kernel) (pid : Int) (s : State) : Nat :=
  (K.step pid s.m).1 % 2 ^ 32

/-- The tracer state after a granted single step of `pid` and its `waitpid`. -/
def after_step (K : Kernel) (pid : Int) (s : State) : State :=
  { s with log := (pid, Request.SINGLESTEP) :: s.log, m := (K.step pid s.m).2 }

/-- The event code `(status >> 16) & 0xffff` of a wait status. -/
def event_code (status : Nat) : Nat := (status >>> 16) &&& 0xffff

/-- The tracer state after a granted `PTRACE_GETEVENTMSG` on `pid`. -/
def after_eventmsg (K : Kernel) (pid : Int) (s : State) : State :=
  { s with log := (pid, Request.GETEVENTMSG) :: s.log, msgs := K.eventmsg pid s.m :: s.msgs }

/-- From tracer state `s` a single step of `pid` is granted and ends in a
`SIGTRAP` stop tagged with the fork event, and the event message can be
fetched. -/
def fork_stop (K : Kernel) (pid : Int) (s : State) : Prop :=
  K.err pid Request.SINGLESTEP s.m = 0 ∧
  WIFEXITED (wait_status K pid s) = false ∧
  WIFSTOPPED (wait_status K pid s) = true ∧
  WSTOPSIG (wait_status K pid s) = SIGTRAP ∧
  event_code (wait_status K pid s) = PTRACE_EVENT_FORK ∧
  K.err pid Request.GETEVENTMSG (after_step K pid s).m = 0

instance fork_stop_decidable (K : Kernel) (pid : Int) (s : State) :
    Decidable (fork_stop K pid s) := by
  unfold fork_stop
  infer_instance

/-- The two bytes `offset` below `rip` can be peeked and are `0F 34`, the
`sysenter` instruction. -/
def sysenter_at (K : Kernel) (pid : Int) (m : Machine) (rip offset : Nat) : Prop :=
  K.err pid (Request.PEEKTEXT ((rip + 2 ^ 64 - offset) % 2 ^ 64)) m = 0 ∧
  (m.proc pid).mem ((rip + 2 ^ 64 - offset) % 2 ^ 64) = 0x0F ∧
  (m.proc pid).mem ((rip + 2 ^ 64 - offset) % 2 ^ 64 + 1) = 0x34

/-- The `child` field of a handle that held `old` after the event messages
`new` (newest first) have been stored into it one after the other. -/
def childAfter (old : Int) (new : List Nat) : Int :=
  match new with
  | [] => old
  | msg :: _ => toInt32 (msg : Int)

/-! ## Reachability of tracer states -/

/-- One action of the tracer on process `pid`: a ptrace request other than a
poke, or a store into `errno`.  With `ev = false` the requests that let the
target run a single step or fetch an event message are left out. -/
inductive Prim (K : Kernel) (pid : Int) (ev : Bool) : State → State → Prop where
  | getregs (s : State) : Prim K pid ev s (ptrace_getregs K pid s).2
  | setregs (r : user_regs_struct) (s : State) : Prim K pid ev s (ptrace_setregs K pid r s).2
  | peek (a : Nat) (s : State) : Prim K pid ev s (ptrace_peektext K pid a s).2
  | syscall (s : State) : Prim K pid ev s (ptrace_syscall K pid s).2
  | errno (e : Int) (s : State) : Prim K pid ev s { s with errno := e }
  | singlestep (s : State) (h : ev = true) : Prim K pid ev s (ptrace_singlestep K pid s).2
  | eventmsg (s : State) (h : ev = true) : Prim K pid ev s (ptrace_geteventmsg K pid s).2

/-- Finitely many actions of the tracer on process `pid`. -/
def Steps (K : Kernel) (pid : Int) (ev : Bool) : State → State → Prop :=
  Relation.ReflTransGen (Prim K pid ev)

def zeroRegs : user_regs_struct :=
  ⟨0, 0, 0, 0, 0, 0, 0, 0, 0, 0, 0, 0, 0, 0, 0, 0, 0, 0, 0, 0, 0, 0, 0, 0, 0, 0, 0⟩

/-- A kernel that refuses nothing; a single step ends in a plain `SIGTRAP`
stop (status `0x057f`) with `3` in the return-value register. -/
def exKernel : Kernel where
  err := fun _ _ _ => 0
  step := fun pid m => (0x057f, m.setRegs pid { (m.proc pid).regs with rax := 3 })
  sysstop := fun _ m => m
  eventmsg := fun _ _ => 0
  attach_wait := fun pid m => (pid, 0x137f, m)

/-- The registers of the example targets: stopped at `0x1000`, stack at
`0x7003`, frame pointer at `0x7100`. -/
def exRegs : user_regs_struct :=
  { zeroRegs with rip := 0x1000, rsp := 0x7003, rbp := 0x7100, rdi := 11, rsi := 12 }

/-- A target stopped in the vsyscall page: `EB F3` before the instruction
pointer, `sysenter` (`0F 34`) eleven bytes before it. -/
def exVsyscall : State where
  m := { proc := fun _ =>
           { regs := exRegs,
             mem := fun a => if a = 0xFFE then 0xEB else if a = 0xFFF then 0xF3
                      else if a = 0xFF5 then 0x0F else if a = 0xFF6 then 0x34 else 0 },
         hidden := 0 }
  errno := 0
  log := []
  msgs := []

/-- A 64-bit target stopped right after a `syscall` instruction (`0F 05`). -/
def exAmd64 : State where
  m := { proc := fun _ =>
           { regs := exRegs,
             mem := fun a => if a = 0xFFE then 0x0F else if a = 0xFFF then 0x05
                      else UInt8.ofNat a },
         hidden := 0 }
  errno := 0
  log := []
  msgs := []

/-- A kernel that refuses nothing; the injected call fails with `ENOENT`: the
single step ends in a plain `SIGTRAP` stop with `-2` in the return-value
register. -/
def enoentKernel : Kernel where
  err := fun _ _ _ => 0
  step := fun pid m =>
    (0x057f, m.setRegs pid { (m.proc pid).regs with rax := 0xFFFFFFFFFFFFFFFE })
  sysstop := fun _ m => m
  eventmsg := fun _ _ => 0
  attach_wait := fun pid m => (pid, 0x137f, m)

/-- As `enoentKernel`, but the return-value register holds `-2^32` after the
step. -/
def wideKernel : Kernel where
  err := fun _ _ _ => 0
  step := fun pid m =>
    (0x057f, m.setRegs pid { (m.proc pid).regs with rax := 0xFFFFFFFF00000000 })
  sysstop := fun _ m => m
  eventmsg := fun _ _ => 0
  attach_wait := fun pid m => (pid, 0x137f, m)

/-- The tracer state once `remote_syscall(t, MYCALL_IOCTL, 3, 4, 5)` has installed
its registers in `exAmd64`. -/
def exInstalled : State :=
  ((install enoentKernel 20 ⟨1, 0⟩ MYCALL_IOCTL 3 4 5 exAmd64).map (fun r => r.2)).getD exAmd64

/-- The tracer state after the single step that follows `exInstalled`. -/
def exStepped : State :=
  ((singlestep_loop enoentKernel 20 ⟨1, 0⟩ exInstalled).map (fun r => r.2.2)).getD exAmd64

/-- A kernel under which the first single step stops with the fork event
(status `0x1057f`, event message 42) and the second with a plain `SIGTRAP`. -/
def forkKernel : Kernel where
  err := fun _ _ _ => 0
  step := fun pid m =>
    if m.hidden = 0 then (0x1057f, { m with hidden := 1 })
    else (0x057f, m.setRegs pid { (m.proc pid).regs with rax := 42 })
  sysstop := fun _ m => m
  eventmsg := fun _ _ => 42
  attach_wait := fun pid m => (pid, 0x137f, m)

/-- The tracer state after the FORK injection is installed under `forkKernel`,
fork events having been asked for. -/
def exForkInstalled : State :=
  ((install forkKernel 20 ⟨1, 0⟩ MYCALL_FORK 0 0 0
    (ptrace_setoptions 1 PTRACE_O_TRACEFORK exAmd64)).map (fun r => r.2)).getD exAmd64

/-- The tracer state after `mytrace_fork` under `forkKernel`. -/
def exForked : State :=
  ((mytrace_fork forkKernel 20 ⟨1, 0⟩ exAmd64).map (fun r => r.2.2)).getD exAmd64

/-- A kernel for the inspector.  Process 1, the target, stops with the fork
event (message 42) on its first single step and with a plain `SIGTRAP`
afterwards.  Every other process single-steps like
`ioctl(fd, TIOCGPTN, 0x7003)` with `fd` in `rdi`: descriptor 3 is the
multiplexer of `/dev/pts/5`, descriptor 4 that of `/dev/pts/9`, descriptor 6
that of `/dev/pts/11`, and for any other descriptor the call fails with
`ENOTTY` (`-25`). -/
def inspectKernel : Kernel where
  err := fun _ _ _ => 0
  step := fun pid m =>
    if pid = 1 then
      if m.hidden = 0 then (0x1057f, { m with hidden := 1 })
      else (0x057f, m.setRegs pid { (m.proc pid).regs with rax := 42 })
    else if (m.proc pid).regs.rdi = 3 ∨ (m.proc pid).regs.rdi = 4 ∨ (m.proc pid).regs.rdi = 6 then
      (0x057f, (m.setRegs pid { (m.proc pid).regs with rax := 0 }).setMem pid
        (fun x => if x = 0x7003 then
            (if (m.proc pid).regs.rdi = 3 then 5 else if (m.proc pid).regs.rdi = 4 then 9 else 11)
          else if 0x7003 < x ∧ x < 0x7007 then 0 else (m.proc pid).mem x))
    else (0x057f, m.setRegs pid { (m.proc pid).regs with rax := 0xFFFFFFFFFFFFFFE7 })
  sysstop := fun _ m => m
  eventmsg := fun _ _ => 42
  attach_wait := fun pid m => (pid, 0x137f, m)

/-- The descriptors of the example target: 0 is a terminal, 3 and 4 are
multiplexer descriptors, 5 is the directory `/dev`, 6 the multiplexer seen
through another mount. -/
def exProcfs : Procfs where
  readdir := fun _ => [".", "..", "0", "3", "4", "5", "6"]
  lstat := fun _ _ => 0
  readlink := fun _ name =>
    if name = "0" then some "/dev/pts/2"
    else if name = "3" ∨ name = "4" then some "/dev/ptmx"
    else if name = "5" then some "/dev"
    else if name = "6" then some "/srv/jail/dev/ptmx"
    else none

/-- Whether a request log holds a single step of process `pid`. -/
def stepped (pid : Int) (log : List (Int × Request)) : Bool :=
  log.any (fun e => e.1 == pid && e.2 == Request.SINGLESTEP)

/-- The tracer state after `mytrace_attach` in the inspector example. -/
def exAttached : State := (mytrace_attach inspectKernel 1 exAmd64).2

/-- The tracer state after `mytrace_fork` in the inspector example. -/
def exChildReady : State :=
  ((mytrace_fork inspectKernel 20 ⟨1, 0⟩ exAttached).map (fun r => r.2.2)).getD exAmd64

/-- The result of `ptsname_list_all` in the inspector example. -/
def exListed : Int × Option (Nat → Int) × Scan × State :=
  (ptsname_list_all inspectKernel exProcfs 20 1 0 exAmd64).getD
    (0, none, ⟨fun _ => 0, 0, 0, [], []⟩, exAmd64)

/-- A kernel under which the single step stops with the exit event: a
`SIGTRAP` stop tagged `PTRACE_EVENT_EXIT` (status `0x6057f`). -/
def exitKernel : Kernel where
  err := fun _ _ _ => 0
  step := fun _ m => (0x6057f, { m with hidden := 1 })
  sysstop := fun _ m => m
  eventmsg := fun _ _ => 0
  attach_wait := fun pid m => (pid, 0x137f, m)

/-- The tracer state once `remote_syscall(t, MYCALL_EXIT, 0, 0, 0)` has
installed its registers in `exAmd64`. -/
def exExitInstalled : State :=
  ((install exitKernel 20 ⟨1, 0⟩ MYCALL_EXIT 0 0 0 exAmd64).map (fun r => r.2)).getD exAmd64

/-- The addresses of the `PTRACE_PEEKTEXT` requests in a request log. -/
def peekAddrs : List (Int × Request) → List Nat
  | [] => []
  | (_, Request.PEEKTEXT a) :: l => a :: peekAddrs l
  | _ :: l => peekAddrs l

/-- The tracer state after the backward scan for `sysenter` in `exVsyscall`. -/
def exScanned : State :=
  ((sysenter_scan exKernel ⟨1, 0⟩ 0x1000 20 2
    { exVsyscall with errno := 0, log := [(1, Request.PEEKTEXT 0xFFE), (1, Request.GETREGS)] }).map
    (fun r => r.2)).getD exVsyscall

/-- The tracer state once `remote_syscall(t, MYCALL_IOCTL, 3, 4, 5)` has
installed its registers in `exVsyscall`. -/
def exVsInstalled : State :=
  ((install exKernel 20 ⟨1, 0⟩ MYCALL_IOCTL 3 4 5 exVsyscall).map (fun r => r.2)).getD exVsyscall

/-- The tracer state after the single step that follows `exVsInstalled`. -/
def exVsStepped : State :=
  ((singlestep_loop exKernel 20 ⟨1, 0⟩ exVsInstalled).map (fun r => r.2.2)).getD exVsyscall

/-- The register set of the newest `PTRACE_SETREGS` in a request log. -/
def lastSetregs : List (Int × Request) → Option user_regs_struct
  | [] => none
  | (_, Request.SETREGS r) :: _ => some r
  | _ :: l => lastSetregs l

/-! ## Theorems -/

theorem land_seven (x : Nat) : x &&& (sizeof_long - 1) = x % 8 := by
  have h := Nat.and_pow_two_sub_one_eq_mod x 3
  simpa [sizeof_long] using h

theorem memBytes_split (mem : Nat → Byte) (a n k : Nat) (h : k ≤ n) :
    memBytes mem a n = memBytes mem a k ++ memBytes mem (a + k) (n - k) := by
  apply List.ext_getElem
  · simp [memBytes]; omega
  · intro i h1 h2
    simp only [memBytes, List.length_map, List.length_range] at h1
    by_cases hi : i < k
    · rw [List.getElem_append_left (by simpa [memBytes] using hi)]
      simp [memBytes]
    · rw [List.getElem_append_right (by simpa [memBytes] using hi)]
      simp only [memBytes, List.getElem_map, List.getElem_range, List.length_map,
        List.length_range]
      congr 1
      omega

theorem wordBytes_readWord (mem : Nat → Byte) (src todo : Nat) :
    wordBytes (readWord mem (src - src % 8)) (src % 8) todo = memBytes mem src todo := by
  simp only [wordBytes, readWord, memBytes]
  apply List.map_congr_left
  intro i _
  congr 1
  have := Nat.mod_le src 8
  omega

theorem memcpy_from_target_loop_spec (K : Kernel) (t : mytrace)
    (hpeek : ∀ a m, K.err t.pid (Request.PEEKTEXT a) m = 0) :
    ∀ (k : Nat) (out : List Byte) (src n : Nat) (s : State), n ≤ k →
      (memcpy_from_target_loop K t k out src n s).1 = 0 ∧
      (memcpy_from_target_loop K t k out src n s).2.1
        = out ++ memBytes (s.m.proc t.pid).mem src n ∧
      (memcpy_from_target_loop K t k out src n s).2.2.m = s.m ∧
      countPeeks (memcpy_from_target_loop K t k out src n s).2.2.log
        = countPeeks s.log + (if n = 0 then 0 else (n + src % 8 + 7) / 8) := by
  intro k
  induction k with
  | zero =>
    intro out src n s hn
    have : n = 0 := by omega
    subst this
    simp [memcpy_from_target_loop, memBytes]
  | succ k ih =>
    intro out src n s hn
    by_cases h0 : n = 0
    · subst h0
      simp [memcpy_from_target_loop, memBytes]
    · have hmod : src % 8 < 8 := Nat.mod_lt _ (by decide)
      simp only [memcpy_from_target_loop, h0, if_false, land_seven, ptrace_peektext, hpeek,
        if_true, ne_eq, not_true_eq_false]
      generalize htodo : (if n < sizeof_long - src % 8 then n else sizeof_long - src % 8) = todo
      have htodo1 : 0 < todo ∧ todo ≤ n ∧ todo ≤ 8 - src % 8 ∧
          (todo = n ∨ todo = 8 - src % 8) := by
        simp only [sizeof_long] at htodo
        split at htodo <;> omega
      obtain ⟨i1, i2, i3, i4⟩ :=
        ih (out ++ wordBytes (readWord (s.m.proc t.pid).mem (src - src % 8)) (src % 8) todo)
          (src + todo) (n - todo)
          { m := s.m, errno := 0, log := (t.pid, Request.PEEKTEXT (src - src % 8)) :: s.log,
            msgs := s.msgs }
          (by omega)
      refine ⟨i1, ?_, i3, ?_⟩
      · rw [i2, wordBytes_readWord, List.append_assoc, ← memBytes_split _ _ _ _ htodo1.2.1]
      · rw [i4]
        simp only [countPeeks]
        split <;> omega

theorem setMem_proc_mem (m : Machine) (pid : Int) (f : Nat → Byte) :
    ((m.setMem pid f).proc pid).mem = f := by
  simp [Machine.setMem]

theorem setMem_setMem (m : Machine) (pid : Int) (f g : Nat → Byte) :
    (m.setMem pid f).setMem pid g = m.setMem pid g := by
  simp only [Machine.setMem]
  congr 1
  funext q
  by_cases h : q = pid <;> simp [h]

theorem getD_drop (l : List Byte) (k i : Nat) :
    (l.drop k).getD i 0 = l.getD (k + i) 0 := by
  simp [List.getD_eq_getElem?_getD, List.getElem?_drop]

theorem setMem_self (m : Machine) (pid : Int) :
    m.setMem pid (m.proc pid).mem = m := by
  cases m with
  | mk proc hidden =>
    simp only [Machine.setMem]
    congr 1
    funext q
    by_cases h : q = pid <;> simp [h]

theorem setMem_nothing (m : Machine) (pid : Int) (dest : Nat) (src : List Byte) :
    m.setMem pid (fun x => if dest ≤ x ∧ x < dest + 0 then src.getD (x - dest) 0
      else (m.proc pid).mem x) = m := by
  have : (fun x => if dest ≤ x ∧ x < dest + 0 then src.getD (x - dest) 0
      else (m.proc pid).mem x) = (m.proc pid).mem := by
    funext x
    rw [if_neg (by omega)]
  rw [this, setMem_self]

/-- Memory of `pid` after `n` bytes of `src` have been laid over it at `dest`. -/
theorem memcpy_into_target_loop_spec (K : Kernel) (t : mytrace)
    (hpeek : ∀ a m, K.err t.pid (Request.PEEKTEXT a) m = 0)
    (hpoke : ∀ a d m, K.err t.pid (Request.POKETEXT a d) m = 0) :
    ∀ (k dest : Nat) (src : List Byte) (n : Nat) (s : State), n ≤ k →
      (memcpy_into_target_loop K t k dest src n s).1 = 0 ∧
      (memcpy_into_target_loop K t k dest src n s).2.m
        = s.m.setMem t.pid (fun x => if dest ≤ x ∧ x < dest + n then src.getD (x - dest) 0
            else (s.m.proc t.pid).mem x) := by
  intro k
  induction k with
  | zero =>
    intro dest src n s hn
    have : n = 0 := by omega
    subst this
    rw [setMem_nothing]
    simp [memcpy_into_target_loop]
  | succ k ih =>
    intro dest src n s hn
    by_cases h0 : n = 0
    · subst h0
      rw [setMem_nothing]
      simp [memcpy_into_target_loop]
    · have hmod : dest % 8 < 8 := Nat.mod_lt _ (by decide)
      have hle : dest % 8 ≤ dest := Nat.mod_le _ _
      simp only [memcpy_into_target_loop, h0, if_false, land_seven]
      generalize htodo : (if n < sizeof_long - dest % 8 then n else sizeof_long - dest % 8) = todo
      have htodo1 : 0 < todo ∧ todo ≤ n ∧ todo ≤ 8 - dest % 8 := by
        simp only [sizeof_long] at htodo
        split at htodo <;> omega
      by_cases hfull : todo = sizeof_long
      · have h8 : todo = 8 := hfull
        have hoff : dest % 8 = 0 := by omega
        simp only [hfull, ne_eq, not_true_eq_false, if_false, false_and, ptrace_poketext, hpoke,
          if_true, lt_self_iff_false]
        obtain ⟨i1, i2⟩ := ih (dest + sizeof_long) (src.drop sizeof_long) (n - sizeof_long)
          { m := s.m.setMem t.pid (writeWord (s.m.proc t.pid).mem (dest - dest % 8)
                (overlay (fun _ => 0) (dest % 8) src sizeof_long)),
            errno := s.errno,
            log := (t.pid, Request.POKETEXT (dest - dest % 8)
              ((List.range sizeof_long).map
                (overlay (fun _ => 0) (dest % 8) src sizeof_long))) :: s.log,
            msgs := s.msgs }
          (by simp only [sizeof_long]; omega)
        refine ⟨i1, ?_⟩
        rw [i2]
        simp only [setMem_setMem, setMem_proc_mem]
        congr 1
        funext x
        simp only [writeWord, overlay, sizeof_long, getD_drop]
        split_ifs <;> first | rfl | omega | (congr 1; omega)
      · have h8 : todo ≠ 8 := hfull
        simp only [hfull, ne_eq, not_false_eq_true, if_true, true_and, ptrace_peektext, hpeek,
          not_true_eq_false, if_false, ptrace_poketext, hpoke, lt_self_iff_false]
        obtain ⟨i1, i2⟩ := ih (dest + todo) (src.drop todo) (n - todo)
          { m := s.m.setMem t.pid (writeWord (s.m.proc t.pid).mem (dest - dest % 8)
                (overlay (readWord (s.m.proc t.pid).mem (dest - dest % 8)) (dest % 8) src todo)),
            errno := 0,
            log := (t.pid, Request.POKETEXT (dest - dest % 8)
              ((List.range sizeof_long).map
                (overlay (readWord (s.m.proc t.pid).mem (dest - dest % 8)) (dest % 8) src
                  todo))) :: (t.pid, Request.PEEKTEXT (dest - dest % 8)) :: s.log,
            msgs := s.msgs }
          (by omega)
        refine ⟨i1, ?_⟩
        rw [i2]
        simp only [setMem_setMem, setMem_proc_mem]
        congr 1
        funext x
        simp only [writeWord, overlay, readWord, sizeof_long, getD_drop]
        split_ifs <;> first | rfl | omega | (congr 1; omega)

/-! ## The engine only acts through ptrace requests -/

theorem Steps.one {K : Kernel} {pid : Int} {ev : Bool} {s s1 : State}
    (h : Prim K pid ev s s1) : Steps K pid ev s s1 :=
  Relation.ReflTransGen.single h

theorem Steps.then {K : Kernel} {pid : Int} {ev : Bool} {s s1 s2 : State}
    (h : Steps K pid ev s s1) (h1 : Steps K pid ev s1 s2) : Steps K pid ev s s2 :=
  Relation.ReflTransGen.trans h h1

theorem Prim.liftEv {K : Kernel} {pid : Int} {s s1 : State} (h : Prim K pid false s s1) :
    Prim K pid true s s1 := by
  cases h with
  | getregs => exact Prim.getregs s
  | setregs r => exact Prim.setregs r s
  | peek a => exact Prim.peek a s
  | syscall => exact Prim.syscall s
  | errno e => exact Prim.errno e s
  | singlestep _ h1 => exact absurd h1 (by decide)
  | eventmsg _ h1 => exact absurd h1 (by decide)

theorem Steps.lift {K : Kernel} {pid : Int} {s s1 : State} (h : Steps K pid false s s1) :
    Steps K pid true s s1 :=
  Relation.ReflTransGen.mono (fun _ _ h1 => Prim.liftEv h1) h

theorem getregs_prim {K : Kernel} {pid : Int} {ev : Bool} {s s1 : State}
    {r : Option user_regs_struct}
    (h : ptrace_getregs K pid s = (r, s1)) : Steps K pid ev s s1 := by
  have := @Prim.getregs K pid ev s
  rw [h] at this
  exact Steps.one this

theorem setregs_prim {K : Kernel} {pid : Int} {ev : Bool} {s s1 : State}
    {regs : user_regs_struct} {b : Bool}
    (h : ptrace_setregs K pid regs s = (b, s1)) : Steps K pid ev s s1 := by
  have := @Prim.setregs K pid ev regs s
  rw [h] at this
  exact Steps.one this

theorem syscall_prim {K : Kernel} {pid : Int} {ev : Bool} {s s1 : State} {b : Bool}
    (h : ptrace_syscall K pid s = (b, s1)) : Steps K pid ev s s1 := by
  have := @Prim.syscall K pid ev s
  rw [h] at this
  exact Steps.one this

theorem singlestep_prim {K : Kernel} {pid : Int} {s s1 : State} {r : Option Nat}
    (h : ptrace_singlestep K pid s = (r, s1)) : Steps K pid true s s1 := by
  have := @Prim.singlestep K pid true s rfl
  rw [h] at this
  exact Steps.one this

theorem eventmsg_prim {K : Kernel} {pid : Int} {s s1 : State} {r : Option Nat}
    (h : ptrace_geteventmsg K pid s = (r, s1)) : Steps K pid true s s1 := by
  have := @Prim.eventmsg K pid true s rfl
  rw [h] at this
  exact Steps.one this

theorem peek_prim (K : Kernel) (pid : Int) (ev : Bool) (a : Nat) (s : State) :
    Steps K pid ev s (ptrace_peektext K pid a s).2 :=
  Steps.one (Prim.peek a s)

theorem resync_steps (K : Kernel) (t : mytrace) :
    ∀ (k : Nat) (s s1 : State) (r : Option (user_regs_struct × Nat × Nat)),
      resync K t k s = some (r, s1) → Steps K t.pid false s s1 := by
  intro k
  induction k with
  | zero => intro s s1 r h; simp [resync] at h
  | succ k ih =>
    intro s s1 r h
    simp only [resync] at h
    split at h
    · rename_i s2 hg
      simp only [Option.some.injEq, Prod.mk.injEq] at h
      rw [← h.2]
      exact getregs_prim hg
    · rename_i oldregs s2 hg
      have h1 : Steps K t.pid false s s2 := getregs_prim hg
      have h2 := peek_prim K t.pid false ((oldregs.rip + 2 ^ 64 - 2) % 2 ^ 64) s2
      split at h
      · simp only [Option.some.injEq, Prod.mk.injEq] at h
        rw [← h.2]
        exact h1.then h2
      · split at h
        · simp only [Option.some.injEq, Prod.mk.injEq] at h
          rw [← h.2]
          exact h1.then h2
        · split at h
          · rename_i s3 hs3
            simp only [Option.some.injEq, Prod.mk.injEq] at h
            rw [← h.2]
            exact (h1.then h2).then (syscall_prim hs3)
          · rename_i s3 hs3
            split at h
            · rename_i s4 hs4
              simp only [Option.some.injEq, Prod.mk.injEq] at h
              rw [← h.2]
              exact ((h1.then h2).then (syscall_prim hs3)).then (syscall_prim hs4)
            · rename_i s4 hs4
              exact (((h1.then h2).then (syscall_prim hs3)).then (syscall_prim hs4)).then
                (ih _ _ _ h)

theorem sysenter_scan_steps (K : Kernel) (t : mytrace) (rip : Nat) :
    ∀ (k offset : Nat) (s s1 : State) (o : Nat),
      sysenter_scan K t rip k offset s = some (o, s1) → Steps K t.pid false s s1 := by
  intro k
  induction k with
  | zero => intro offset s s1 o h; simp [sysenter_scan] at h
  | succ k ih =>
    intro offset s s1 o h
    simp only [sysenter_scan] at h
    have h2 := peek_prim K t.pid false ((rip + 2 ^ 64 - offset) % 2 ^ 64) s
    split at h
    · exact h2.then (ih _ _ _ _ h)
    · simp only [Option.some.injEq, Prod.mk.injEq] at h
      rw [← h.2]
      exact h2

theorem install_steps (K : Kernel) (fuel : Nat) (t : mytrace) (call arg1 arg2 arg3 : Int)
    (s s1 : State) (r : Option user_regs_struct)
    (h : install K fuel t call arg1 arg2 arg3 s = some (r, s1)) : Steps K t.pid false s s1 := by
  simp only [install] at h
  split at h
  · simp at h
  · rename_i s2 hr
    simp only [Option.some.injEq, Prod.mk.injEq] at h
    rw [← h.2]
    exact resync_steps K t _ _ _ _ hr
  · rename_i oldregs oinst bits s2 hr
    have h1 := resync_steps K t _ _ _ _ hr
    split at h
    · simp at h
    · rename_i offset oldregs1 s3 hscan
      have h2 : Steps K t.pid false s2 s3 := by
        split at hscan
        · split at hscan
          · simp at hscan
          · rename_i o s4 hsc
            simp only [Option.some.injEq, Prod.mk.injEq] at hscan
            rw [← hscan.2.2]
            exact sysenter_scan_steps K t _ _ _ _ _ _ hsc
        · simp only [Option.some.injEq, Prod.mk.injEq] at hscan
          rw [← hscan.2.2]
          exact Relation.ReflTransGen.refl
      split at h
      · rename_i s4 hset
        simp only [Option.some.injEq, Prod.mk.injEq] at h
        rw [← h.2]
        exact (h1.then h2).then (setregs_prim hset)
      · rename_i s4 hset
        simp only [Option.some.injEq, Prod.mk.injEq] at h
        rw [← h.2]
        exact (h1.then h2).then (setregs_prim hset)

theorem singlestep_loop_steps (K : Kernel) :
    ∀ (k : Nat) (t t1 : mytrace) (s s1 : State) (e : StepEnd),
      singlestep_loop K k t s = some (e, t1, s1) → t1.pid = t.pid ∧ Steps K t.pid true s s1 := by
  intro k
  induction k with
  | zero => intro t t1 s s1 e h; simp [singlestep_loop] at h
  | succ k ih =>
    intro t t1 s s1 e h
    simp only [singlestep_loop] at h
    split at h
    · rename_i s2 hs
      simp only [Option.some.injEq, Prod.mk.injEq] at h
      rw [← h.2.1, ← h.2.2]
      exact ⟨rfl, singlestep_prim hs⟩
    · rename_i status s2 hs
      have h1 := singlestep_prim hs
      split at h
      · simp only [Option.some.injEq, Prod.mk.injEq] at h
        rw [← h.2.1, ← h.2.2]
        exact ⟨rfl, h1⟩
      · split at h
        · obtain ⟨i1, i2⟩ := ih _ _ _ _ _ h
          exact ⟨i1, h1.then i2⟩
        · split at h
          · split at h
            · rename_i s3 hm
              simp only [Option.some.injEq, Prod.mk.injEq] at h
              rw [← h.2.1, ← h.2.2]
              exact ⟨rfl, h1.then (eventmsg_prim hm)⟩
            · rename_i msg s3 hm
              obtain ⟨i1, i2⟩ := ih _ _ _ _ _ h
              exact ⟨i1, (h1.then (eventmsg_prim hm)).then i2⟩
          · split at h
            · simp only [Option.some.injEq, Prod.mk.injEq] at h
              rw [← h.2.1, ← h.2.2]
              exact ⟨rfl, h1⟩
            · split at h
              · simp only [Option.some.injEq, Prod.mk.injEq] at h
                rw [← h.2.1, ← h.2.2]
                exact ⟨rfl, h1⟩
              · simp only [Option.some.injEq, Prod.mk.injEq] at h
                rw [← h.2.1, ← h.2.2]
                exact ⟨rfl, h1⟩

theorem capture_steps (K : Kernel) (t : mytrace) (oldregs : user_regs_struct) (s : State) :
    Steps K t.pid false s (capture K t oldregs s).2 := by
  simp only [capture]
  split
  · rename_i s1 hg
    exact getregs_prim hg
  · rename_i regs s1 hg
    have h1 : Steps K t.pid false s s1 := getregs_prim hg
    split
    · rename_i s2 hset
      exact h1.then (setregs_prim hset)
    · rename_i s2 hset
      have h2 := h1.then (setregs_prim hset)
      split
      · exact h2.then (Steps.one (Prim.errno _ _))
      · exact h2

theorem remote_syscall_steps (K : Kernel) (fuel : Nat) (t t1 : mytrace)
    (call arg1 arg2 arg3 v : Int) (s s1 : State)
    (h : remote_syscall K fuel t call arg1 arg2 arg3 s = some (v, t1, s1)) :
    t1.pid = t.pid ∧ Steps K t.pid true s s1 := by
  simp only [remote_syscall] at h
  split at h
  · simp only [Option.some.injEq, Prod.mk.injEq] at h
    rw [← h.2.1, ← h.2.2]
    exact ⟨rfl, Relation.ReflTransGen.refl⟩
  · split at h
    · simp at h
    · rename_i s3 hi
      simp only [Option.some.injEq, Prod.mk.injEq] at h
      rw [← h.2.1, ← h.2.2]
      exact ⟨rfl, (install_steps K _ _ _ _ _ _ _ _ _ hi).lift⟩
    · rename_i oldregs s3 hi
      have h1 := (install_steps K _ _ _ _ _ _ _ _ _ hi).lift
      split at h
      · simp at h
      · rename_i v1 t2 s4 hl
        obtain ⟨i1, i2⟩ := singlestep_loop_steps K _ _ _ _ _ _ hl
        simp only [Option.some.injEq, Prod.mk.injEq] at h
        rw [← h.2.1, ← h.2.2]
        exact ⟨i1, h1.then i2⟩
      · rename_i t2 s4 hl
        obtain ⟨i1, i2⟩ := singlestep_loop_steps K _ _ _ _ _ _ hl
        simp only [Option.some.injEq, Prod.mk.injEq] at h
        rw [← h.2.1, ← h.2.2]
        refine ⟨i1, (h1.then i2).then ?_⟩
        have := capture_steps K t2 oldregs s4
        rw [i1] at this
        exact this.lift

theorem prim_msgs {K : Kernel} {pid : Int} {s s1 : State} (h : Prim K pid false s s1) :
    s1.msgs = s.msgs := by
  cases h with
  | getregs => simp only [ptrace_getregs]; split <;> rfl
  | setregs r => simp only [ptrace_setregs]; split <;> rfl
  | peek a => simp only [ptrace_peektext]; split <;> rfl
  | syscall => simp only [ptrace_syscall]; split <;> rfl
  | errno e => rfl
  | singlestep _ h1 => exact absurd h1 (by decide)
  | eventmsg _ h1 => exact absurd h1 (by decide)

theorem steps_msgs {K : Kernel} {pid : Int} {s s1 : State} (h : Steps K pid false s s1) :
    s1.msgs = s.msgs := by
  induction h with
  | refl => rfl
  | tail _ hp ih => rw [prim_msgs hp, ih]

/-- C1. `memcpy_into_target`: whatever the target memory, the destination
address (aligned or not) and the byte string `src`, if no peek and no poke is
refused the call returns 0, afterwards the bytes at `[dest, dest + n)` are
`src`, and every byte of target memory outside that range is unchanged. -/
theorem memcpy_into_target_correct (K : Kernel) (t : mytrace) (dest : Nat) (src : List Byte)
    (s : State)
    (hpeek : ∀ a m, K.err t.pid (Request.PEEKTEXT a) m = 0)
    (hpoke : ∀ a d m, K.err t.pid (Request.POKETEXT a d) m = 0) :
    (memcpy_into_target K t dest src src.length s).1 = 0 ∧
    memBytes ((memcpy_into_target K t dest src src.length s).2.m.proc t.pid).mem dest src.length
      = src ∧
    ∀ x, x < dest ∨ dest + src.length ≤ x →
      ((memcpy_into_target K t dest src src.length s).2.m.proc t.pid).mem x
        = (s.m.proc t.pid).mem x := by
  obtain ⟨h1, h2⟩ :=
    memcpy_into_target_loop_spec K t hpeek hpoke src.length dest src src.length s (le_refl _)
  unfold memcpy_into_target
  refine ⟨h1, ?_, ?_⟩
  · rw [h2, setMem_proc_mem]
    apply List.ext_getElem
    · simp [memBytes]
    · intro i hi1 hi2
      simp only [memBytes, List.getElem_map, List.getElem_range]
      rw [if_pos (by omega), List.getD_eq_getElem?_getD, List.getElem?_eq_getElem (by omega)]
      simp
  · intro x hx
    rw [h2, setMem_proc_mem]
    exact if_neg (by omega)

/-- A write of ten bytes at the unaligned address `0x7003` (partial head and
tail words). -/
theorem memcpy_into_target_correct_witness :
    (memcpy_into_target exKernel ⟨1, 0⟩ 0x7003 [1, 2, 3, 4, 5, 6, 7, 8, 9, 10] 10 exAmd64).1 = 0 ∧
    memBytes ((memcpy_into_target exKernel ⟨1, 0⟩ 0x7003 [1, 2, 3, 4, 5, 6, 7, 8, 9, 10] 10
      exAmd64).2.m.proc 1).mem 0x7003 10 = [1, 2, 3, 4, 5, 6, 7, 8, 9, 10] ∧
    ∀ x, x < 0x7003 ∨ 0x7003 + 10 ≤ x →
      ((memcpy_into_target exKernel ⟨1, 0⟩ 0x7003 [1, 2, 3, 4, 5, 6, 7, 8, 9, 10] 10
        exAmd64).2.m.proc 1).mem x = (exAmd64.m.proc 1).mem x :=
  memcpy_into_target_correct exKernel ⟨1, 0⟩ 0x7003 [1, 2, 3, 4, 5, 6, 7, 8, 9, 10] exAmd64
    (fun _ _ => rfl) (fun _ _ _ => rfl)

/-- C2. `memcpy_from_target`: whatever the target memory, the source address
(aligned or not) and the length `n`, if no peek is refused the call returns 0,
the destination holds the `n` bytes of target memory at `[src, src + n)` in
order, the machine is unchanged, and the number of peeks issued is at most
`ceil((n + src mod sizeof(long)) / sizeof(long))`. -/
theorem memcpy_from_target_correct (K : Kernel) (t : mytrace) (src n : Nat) (s : State)
    (hpeek : ∀ a m, K.err t.pid (Request.PEEKTEXT a) m = 0) :
    (memcpy_from_target K t src n s).1 = 0 ∧
    (memcpy_from_target K t src n s).2.1 = memBytes (s.m.proc t.pid).mem src n ∧
    (memcpy_from_target K t src n s).2.2.m = s.m ∧
    countPeeks (memcpy_from_target K t src n s).2.2.log
      ≤ countPeeks s.log + (n + src % sizeof_long + (sizeof_long - 1)) / sizeof_long := by
  obtain ⟨h1, h2, h3, h4⟩ := memcpy_from_target_loop_spec K t hpeek n [] src n s (le_refl _)
  unfold memcpy_from_target
  refine ⟨h1, by simpa using h2, h3, ?_⟩
  rw [h4]
  simp only [sizeof_long]
  split <;> omega

/-- A read of ten bytes from the unaligned address `0x7003`: two peeks. -/
theorem memcpy_from_target_correct_witness :
    (memcpy_from_target exKernel ⟨1, 0⟩ 0x7003 10 exAmd64).1 = 0 ∧
    (memcpy_from_target exKernel ⟨1, 0⟩ 0x7003 10 exAmd64).2.1
      = memBytes (exAmd64.m.proc 1).mem 0x7003 10 ∧
    (memcpy_from_target exKernel ⟨1, 0⟩ 0x7003 10 exAmd64).2.2.m = exAmd64.m ∧
    countPeeks (memcpy_from_target exKernel ⟨1, 0⟩ 0x7003 10 exAmd64).2.2.log
      ≤ countPeeks exAmd64.log + (10 + 0x7003 % sizeof_long + (sizeof_long - 1)) / sizeof_long :=
  memcpy_from_target_correct exKernel ⟨1, 0⟩ 0x7003 10 exAmd64 (fun _ _ => rfl)

/-! ## C3: register transparency -/

/-- C3 (as stated, refuted). A target stopped after the vsyscall back-jump `EB F3`
with frame pointer `0x7100` and stack pointer `0x7003`: `remote_syscall`
returns the non-negative result 3 through the plain-trap path, and the register
set it writes back last has the frame pointer `0x7003`, so it differs from the
register set read at the start of the call. -/
theorem remote_syscall_vsyscall_restores_other_rbp :
    (exVsyscall.m.proc 1).regs = exRegs ∧
    (remote_syscall exKernel 20 ⟨1, 0⟩ MYCALL_IOCTL 3 4 5 exVsyscall).map
        (fun r => (r.1, lastSetregs r.2.2.log))
      = some (3, some { exRegs with rbp := 0x7003 }) ∧
    ({ exRegs with rbp := 0x7003 } : user_regs_struct) ≠ exRegs := by
  decide

/-! ## C4: memory transparency of the staged operations -/

theorem prim_log {K : Kernel} {pid : Int} {ev : Bool} {s s1 : State} (h : Prim K pid ev s s1) :
    ∃ rest, s1.log = rest ++ s.log := by
  cases h with
  | getregs => exact ⟨[(pid, Request.GETREGS)], by simp only [ptrace_getregs]; split <;> rfl⟩
  | setregs r =>
    exact ⟨[(pid, Request.SETREGS r)], by simp only [ptrace_setregs]; split <;> rfl⟩
  | peek a => exact ⟨[(pid, Request.PEEKTEXT a)], by simp only [ptrace_peektext]; split <;> rfl⟩
  | syscall => exact ⟨[(pid, Request.SYSCALL)], by simp only [ptrace_syscall]; split <;> rfl⟩
  | errno e => exact ⟨[], rfl⟩
  | singlestep _ h1 =>
    exact ⟨[(pid, Request.SINGLESTEP)], by simp only [ptrace_singlestep]; split <;> rfl⟩
  | eventmsg _ h1 =>
    exact ⟨[(pid, Request.GETEVENTMSG)], by simp only [ptrace_geteventmsg]; split <;> rfl⟩

theorem steps_log {K : Kernel} {pid : Int} {ev : Bool} {s s1 : State}
    (h : Steps K pid ev s s1) : ∃ rest, s1.log = rest ++ s.log := by
  induction h with
  | refl => exact ⟨[], rfl⟩
  | tail _ hp ih =>
    obtain ⟨r1, h1⟩ := ih
    obtain ⟨r2, h2⟩ := prim_log hp
    exact ⟨r2 ++ r1, by rw [h2, h1, List.append_assoc]⟩

/-- What `remote_syscall` does once the injection registers are installed. -/
theorem remote_syscall_after_install (K : Kernel) (fuel : Nat) (t t1 : mytrace)
    (call arg1 arg2 arg3 v : Int) (s s3 s1 : State) (oldregs : user_regs_struct)
    (hcall : 0 ≤ call ∧ call < 11)
    (hi : install K fuel t call arg1 arg2 arg3 s = some (some oldregs, s3))
    (h : remote_syscall K fuel t call arg1 arg2 arg3 s = some (v, t1, s1)) :
    Steps K t.pid true s3 s1 := by
  have hc : ¬ (call < 0 ∨ call ≥ (syscallnames.length : Int)) := by
    simp only [syscallnames, List.length_cons, List.length_nil]
    omega
  simp only [remote_syscall, hc, if_false, hi] at h
  split at h
  · simp at h
  · rename_i v1 t2 s4 hl
    obtain ⟨_, i2⟩ := singlestep_loop_steps K _ _ _ _ _ _ hl
    simp only [Option.some.injEq, Prod.mk.injEq] at h
    rw [← h.2.2]
    exact i2
  · rename_i t2 s4 hl
    obtain ⟨i1, i2⟩ := singlestep_loop_steps K _ _ _ _ _ _ hl
    simp only [Option.some.injEq, Prod.mk.injEq] at h
    rw [← h.2.2]
    refine i2.then ?_
    have := capture_steps K t2 oldregs s4
    rw [i1] at this
    exact this.lift

theorem install_with (K : Kernel) (fuel : Nat) (t : mytrace) (call arg1 arg2 arg3 : Int)
    (s : State) (oinst bits : Nat)
    (hget : K.err t.pid Request.GETREGS s.m = 0)
    (hpeek : K.err t.pid
      (Request.PEEKTEXT (((s.m.proc t.pid).regs.rip + 2 ^ 64 - 2) % 2 ^ 64)) s.m = 0)
    (hset : ∀ r, K.err t.pid (Request.SETREGS r) s.m = 0)
    (hinst : low16 (readWord (s.m.proc t.pid).mem
      (((s.m.proc t.pid).regs.rip + 2 ^ 64 - 2) % 2 ^ 64)) = oinst)
    (hbits : (oinst = SYSCALL_AMD64 ∧ bits = 64) ∨ (oinst = SYSCALL_X86 ∧ bits = 32)) :
    install K (fuel + 1) t call arg1 arg2 arg3 s
      = some (some (s.m.proc t.pid).regs,
          { m := s.m.setRegs t.pid
              (injection (s.m.proc t.pid).regs 2 bits call arg1 arg2 arg3),
            errno := 0,
            log := (t.pid, Request.SETREGS
                (injection (s.m.proc t.pid).regs 2 bits call arg1 arg2 arg3))
              :: (t.pid, Request.PEEKTEXT (((s.m.proc t.pid).regs.rip + 2 ^ 64 - 2) % 2 ^ 64))
              :: (t.pid, Request.GETREGS) :: s.log,
            msgs := s.msgs }) := by
  have e1 : ¬ SYSCALL_AMD64 = SYSCALL_X86_NEW := by decide
  have e2 : ¬ SYSCALL_X86 = SYSCALL_AMD64 := by decide
  have e3 : ¬ SYSCALL_X86 = SYSCALL_X86_NEW := by decide
  rcases hbits with ⟨h1, h2⟩ | ⟨h1, h2⟩
  · subst h2
    simp only [install, resync, ptrace_getregs, hget, if_true, ptrace_peektext, hpeek, hinst, h1,
      ptrace_setregs, hset, e1, if_false]
  · subst h2
    simp only [install, resync, ptrace_getregs, hget, if_true, ptrace_peektext, hpeek, hinst, h1,
      ptrace_setregs, hset, e2, e3, if_false, true_or]

theorem toLong_ofLong (a : Int) (h1 : -2 ^ 63 ≤ a) (h2 : a < 2 ^ 63) : toLong (ofLong a) = a := by
  unfold toLong ofLong
  have e : ((a % 2 ^ 64).toNat : Int) = a % 2 ^ 64 :=
    Int.toNat_of_nonneg (Int.emod_nonneg _ (by norm_num))
  have e2 : (a % 2 ^ 64).toNat % 2 ^ 64 = (a % 2 ^ 64).toNat := by
    apply Nat.mod_eq_of_lt
    have : a % 2 ^ 64 < 2 ^ 64 := Int.emod_lt_of_pos _ (by norm_num)
    omega
  rw [e2, e]
  norm_num at h1 h2 ⊢
  split <;> omega

theorem low16_syscall (mem : Nat → Byte) (a : Nat) (h : mem a = 0x0F ∧ mem (a + 1) = 0x05) :
    low16 (readWord mem a) = SYSCALL_AMD64 := by
  simp only [low16, readWord, Nat.add_zero, h.1, h.2]
  decide

theorem low16_int80 (mem : Nat → Byte) (a : Nat) (h : mem a = 0xCD ∧ mem (a + 1) = 0x80) :
    low16 (readWord mem a) = SYSCALL_X86 := by
  simp only [low16, readWord, Nat.add_zero, h.1, h.2]
  decide

/-- C5. For every in-range tag and arguments: when the two bytes before the
instruction pointer are `0F 05`, the register set installed before
single-stepping is the saved set except for `rip` (two bytes back), `rax`
(`syscalls64[tag]`) and `rdi`, `rsi`, `rdx` (the arguments); when they are
`CD 80`, it is the saved set except for `rip`, `rax` (`syscalls32[tag]`) and
`rbx`, `rcx`, `rdx`.  It is the third request of the call, after the register
read and the peek.  Both tables have eleven entries and hold, tag by tag, the
x86_64 and i386 numbers of the call named by `syscallnames`. -/
theorem injection_snapshot (K : Kernel) (fuel : Nat) (t : mytrace) (call a1 a2 a3 : Int)
    (s : State)
    (hcall : 0 ≤ call ∧ call < 11)
    (hget : K.err t.pid Request.GETREGS s.m = 0)
    (hpeek : K.err t.pid
      (Request.PEEKTEXT (((s.m.proc t.pid).regs.rip + 2 ^ 64 - 2) % 2 ^ 64)) s.m = 0)
    (hset : ∀ r, K.err t.pid (Request.SETREGS r) s.m = 0) :
    ((s.m.proc t.pid).mem (((s.m.proc t.pid).regs.rip + 2 ^ 64 - 2) % 2 ^ 64) = 0x0F ∧
     (s.m.proc t.pid).mem (((s.m.proc t.pid).regs.rip + 2 ^ 64 - 2) % 2 ^ 64 + 1) = 0x05 →
      (∃ s3, install K (fuel + 1) t call a1 a2 a3 s = some (some (s.m.proc t.pid).regs, s3) ∧
        (s3.m.proc t.pid).regs =
          { (s.m.proc t.pid).regs with
            rip := ((s.m.proc t.pid).regs.rip + 2 ^ 64 - 2) % 2 ^ 64,
            rax := syscalls64.getD call.toNat 0,
            rdi := ofLong a1, rsi := ofLong a2, rdx := ofLong a3 }) ∧
      ∀ v t1 s1, remote_syscall K (fuel + 1) t call a1 a2 a3 s = some (v, t1, s1) →
        ∃ rest, s1.log = rest ++
          (t.pid, Request.SETREGS
            { (s.m.proc t.pid).regs with
              rip := ((s.m.proc t.pid).regs.rip + 2 ^ 64 - 2) % 2 ^ 64,
              rax := syscalls64.getD call.toNat 0,
              rdi := ofLong a1, rsi := ofLong a2, rdx := ofLong a3 })
          :: (t.pid, Request.PEEKTEXT (((s.m.proc t.pid).regs.rip + 2 ^ 64 - 2) % 2 ^ 64))
          :: (t.pid, Request.GETREGS) :: s.log) ∧
    ((s.m.proc t.pid).mem (((s.m.proc t.pid).regs.rip + 2 ^ 64 - 2) % 2 ^ 64) = 0xCD ∧
     (s.m.proc t.pid).mem (((s.m.proc t.pid).regs.rip + 2 ^ 64 - 2) % 2 ^ 64 + 1) = 0x80 →
      (∃ s3, install K (fuel + 1) t call a1 a2 a3 s = some (some (s.m.proc t.pid).regs, s3) ∧
        (s3.m.proc t.pid).regs =
          { (s.m.proc t.pid).regs with
            rip := ((s.m.proc t.pid).regs.rip + 2 ^ 64 - 2) % 2 ^ 64,
            rax := syscalls32.getD call.toNat 0,
            rbx := ofLong a1, rcx := ofLong a2, rdx := ofLong a3 }) ∧
      ∀ v t1 s1, remote_syscall K (fuel + 1) t call a1 a2 a3 s = some (v, t1, s1) →
        ∃ rest, s1.log = rest ++
          (t.pid, Request.SETREGS
            { (s.m.proc t.pid).regs with
              rip := ((s.m.proc t.pid).regs.rip + 2 ^ 64 - 2) % 2 ^ 64,
              rax := syscalls32.getD call.toNat 0,
              rbx := ofLong a1, rcx := ofLong a2, rdx := ofLong a3 })
          :: (t.pid, Request.PEEKTEXT (((s.m.proc t.pid).regs.rip + 2 ^ 64 - 2) % 2 ^ 64))
          :: (t.pid, Request.GETREGS) :: s.log) ∧
    (∀ a : Int, -2 ^ 63 ≤ a → a < 2 ^ 63 → toLong (ofLong a) = a) ∧
    syscalls32.length = 11 ∧ syscalls64.length = 11 ∧ syscallnames.length = 11 ∧
    [MYCALL_OPEN, MYCALL_CLOSE, MYCALL_WRITE, MYCALL_DUP2, MYCALL_SETPGID, MYCALL_SETSID,
      MYCALL_KILL, MYCALL_FORK, MYCALL_EXIT, MYCALL_EXECVE, MYCALL_IOCTL].map
        (fun c => syscallnames.getD c.toNat "")
      = ["open", "close", "write", "dup2", "setpgid", "setsid", "kill", "fork", "exit",
          "execve", "ioctl"] ∧
    ∀ tag, tag < 11 →
      unistd_32.lookup (syscallnames.getD tag "") = some (syscalls32.getD tag 0) ∧
      unistd_64.lookup (syscallnames.getD tag "") = some (syscalls64.getD tag 0) := by
  refine ⟨?_, ?_, toLong_ofLong, by decide, by decide, by decide, by decide, by decide⟩
  · intro hb
    have hi := install_with K fuel t call a1 a2 a3 s SYSCALL_AMD64 64 hget hpeek hset
      (low16_syscall _ _ hb) (Or.inl ⟨rfl, rfl⟩)
    refine ⟨⟨_, hi, ?_⟩, ?_⟩
    · simp [Machine.setRegs, injection]
    · intro v t1 s1 h
      obtain ⟨rest, hr⟩ := steps_log (remote_syscall_after_install K _ _ _ _ _ _ _ _ _ _ _ _
        hcall hi h)
      refine ⟨rest, ?_⟩
      rw [hr]
      simp [injection]
  · intro hb
    have hi := install_with K fuel t call a1 a2 a3 s SYSCALL_X86 32 hget hpeek hset
      (low16_int80 _ _ hb) (Or.inr ⟨rfl, rfl⟩)
    refine ⟨⟨_, hi, ?_⟩, ?_⟩
    · simp [Machine.setRegs, injection]
    · intro v t1 s1 h
      obtain ⟨rest, hr⟩ := steps_log (remote_syscall_after_install K _ _ _ _ _ _ _ _ _ _ _ _
        hcall hi h)
      refine ⟨rest, ?_⟩
      rw [hr]
      simp [injection]

/-- A 64-bit target stopped after `0F 05` at `0x1000`: for
`remote_syscall(t, MYCALL_IOCTL, 3, 4, 5)` the installed registers are the
saved ones with `rip = 0xFFE`, `rax = 16`, `rdi, rsi, rdx = 3, 4, 5`. -/
theorem injection_snapshot_witness :
    ∃ s3, install exKernel 1 ⟨1, 0⟩ MYCALL_IOCTL 3 4 5 exAmd64 = some (some exRegs, s3) ∧
      (s3.m.proc 1).regs = { exRegs with rip := 0xFFE, rax := 16, rdi := 3, rsi := 4, rdx := 5 } :=
  ((injection_snapshot exKernel 0 ⟨1, 0⟩ MYCALL_IOCTL 3 4 5 exAmd64 (by decide) rfl rfl
    (fun _ => rfl)).1 (by decide)).1

/-! ## C6: result capture -/

theorem singlestep_loop_returned (K : Kernel) :
    ∀ (k : Nat) (t t1 : mytrace) (s s1 : State) (v : Int),
      singlestep_loop K k t s = some (StepEnd.returned v, t1, s1) → v = -1 ∨ v = 0 := by
  intro k
  induction k with
  | zero => intro t t1 s s1 v h; simp [singlestep_loop] at h
  | succ k ih =>
    intro t t1 s s1 v h
    simp only [singlestep_loop] at h
    split at h
    · simp only [Option.some.injEq, Prod.mk.injEq, StepEnd.returned.injEq] at h
      exact Or.inl h.1.symm
    · split at h
      · simp only [Option.some.injEq, Prod.mk.injEq, StepEnd.returned.injEq] at h
        exact Or.inr h.1.symm
      · split at h
        · exact ih _ _ _ _ _ h
        · split at h
          · split at h
            · simp only [Option.some.injEq, Prod.mk.injEq, StepEnd.returned.injEq] at h
              exact Or.inl h.1.symm
            · exact ih _ _ _ _ _ h
          · split at h
            · simp only [Option.some.injEq, Prod.mk.injEq, StepEnd.returned.injEq] at h
              exact Or.inr h.1.symm
            · split at h
              · simp only [Option.some.injEq, Prod.mk.injEq, StepEnd.returned.injEq] at h
                exact Or.inr h.1.symm
              · simp at h

theorem capture_ret (K : Kernel) (t : mytrace) (oldregs : user_regs_struct) (s : State) :
    (capture K t oldregs s).1 = -1 ∨ 0 ≤ (capture K t oldregs s).1 := by
  simp only [capture]
  split
  · exact Or.inl rfl
  · split
    · exact Or.inl rfl
    · split
      · exact Or.inl rfl
      · rename_i h
        exact Or.inr (by simpa using h)

theorem remote_syscall_ret (K : Kernel) (fuel : Nat) (t t1 : mytrace)
    (call arg1 arg2 arg3 v : Int) (s s1 : State)
    (h : remote_syscall K fuel t call arg1 arg2 arg3 s = some (v, t1, s1)) :
    v = -1 ∨ 0 ≤ v := by
  simp only [remote_syscall] at h
  split at h
  · simp only [Option.some.injEq, Prod.mk.injEq] at h
    exact Or.inl h.1.symm
  · split at h
    · simp at h
    · simp only [Option.some.injEq, Prod.mk.injEq] at h
      exact Or.inl h.1.symm
    · split at h
      · simp at h
      · rename_i v1 t2 s4 hl
        simp only [Option.some.injEq, Prod.mk.injEq] at h
        rw [← h.1]
        rcases singlestep_loop_returned K _ _ _ _ _ _ hl with h1 | h1
        · exact Or.inl h1
        · exact Or.inr (by rw [h1])
      · rename_i oldregs _ _ _ t2 s4 hl
        simp only [Option.some.injEq, Prod.mk.injEq] at h
        rw [← h.1]
        exact capture_ret K t2 oldregs s4

theorem toInt32_small (v : Int) (h1 : -2 ^ 31 ≤ v) (h2 : v < 2 ^ 31) : toInt32 v = v := by
  unfold toInt32
  norm_num at h1 h2 ⊢
  omega

/-- C6 (as stated, refuted). The single step ends in a plain trap with
`r = -2^32` in the return-value register: `remote_syscall` returns `-1`, but
`errno`, an `int`, is left at 0 and not at `-r = 2^32`. -/
theorem remote_syscall_errno_is_an_int :
    (wideKernel.step 1 exInstalled.m).1 = 0x057f ∧
    toLong ((wideKernel.step 1 exInstalled.m).2.proc 1).regs.rax = -4294967296 ∧
    (remote_syscall wideKernel 20 ⟨1, 0⟩ MYCALL_IOCTL 3 4 5 exAmd64).map
        (fun r => (r.1, r.2.2.errno)) = some (-1, 0) ∧
    (0 : Int) ≠ -(-4294967296) := by
  decide

/-- C6 (amended). When the single-step loop ends on a plain trap and the
registers are read and written back, with `r` the return-value register read
as a signed `long`: if `r < 0`, `remote_syscall` returns `-1` with `errno` set
to `-r` converted to `int`, which is `-r` itself whenever `r > -2^31`; if
`r ≥ 0` (zero included) it returns `r` and leaves `errno` alone.  No run of
`remote_syscall` returns a negative value other than `-1`. -/
theorem result_capture (K : Kernel) (fuel : Nat) (t t1 : mytrace) (call a1 a2 a3 : Int)
    (s s3 s4 : State) (oldregs : user_regs_struct)
    (hcall : 0 ≤ call ∧ call < 11)
    (hi : install K fuel t call a1 a2 a3 s = some (some oldregs, s3))
    (hl : singlestep_loop K fuel t s3 = some (StepEnd.trapped, t1, s4))
    (hget : K.err t1.pid Request.GETREGS s4.m = 0)
    (hset : K.err t1.pid (Request.SETREGS oldregs) s4.m = 0) :
    (toLong (s4.m.proc t1.pid).regs.rax < 0 →
      ∃ s5, remote_syscall K fuel t call a1 a2 a3 s = some (-1, t1, s5) ∧
        s5.errno = toInt32 (-toLong (s4.m.proc t1.pid).regs.rax) ∧
        (-2 ^ 31 < toLong (s4.m.proc t1.pid).regs.rax →
          s5.errno = -toLong (s4.m.proc t1.pid).regs.rax)) ∧
    (0 ≤ toLong (s4.m.proc t1.pid).regs.rax →
      ∃ s5, remote_syscall K fuel t call a1 a2 a3 s
          = some (toLong (s4.m.proc t1.pid).regs.rax, t1, s5) ∧
        s5.errno = s4.errno) ∧
    (∀ (K1 : Kernel) (fuel1 : Nat) (u u1 : mytrace) (c b1 b2 b3 v : Int) (w w1 : State),
      remote_syscall K1 fuel1 u c b1 b2 b3 w = some (v, u1, w1) → v < 0 → v = -1) := by
  have hc : ¬ (call < 0 ∨ call ≥ (syscallnames.length : Int)) := by
    simp only [syscallnames, List.length_cons, List.length_nil]
    omega
  have hrun : remote_syscall K fuel t call a1 a2 a3 s
      = some ((capture K t1 oldregs s4).1, t1, (capture K t1 oldregs s4).2) := by
    simp only [remote_syscall, hc, if_false, hi, hl]
  refine ⟨?_, ?_, ?_⟩
  · intro hneg
    have hcap : (capture K t1 oldregs s4).1 = -1 ∧
        (capture K t1 oldregs s4).2.errno = toInt32 (-toLong (s4.m.proc t1.pid).regs.rax) := by
      simp only [capture, ptrace_getregs, hget, if_true, ptrace_setregs, hset, hneg, and_self]
    refine ⟨(capture K t1 oldregs s4).2, ?_, hcap.2, ?_⟩
    · rw [hrun, hcap.1]
    · intro hbig
      rw [hcap.2]
      exact toInt32_small _ (by omega) (by omega)
  · intro hpos
    have hcap : (capture K t1 oldregs s4).1 = toLong (s4.m.proc t1.pid).regs.rax ∧
        (capture K t1 oldregs s4).2.errno = s4.errno := by
      simp only [capture, ptrace_getregs, hget, if_true, ptrace_setregs, hset,
        not_lt.mpr hpos, if_false, and_self]
    refine ⟨(capture K t1 oldregs s4).2, ?_, hcap.2⟩
    rw [hrun, hcap.1]
  · intro K1 fuel1 u u1 c b1 b2 b3 v w w1 h hv
    rcases remote_syscall_ret K1 fuel1 u u1 c b1 b2 b3 v w w1 h with h1 | h1
    · exact h1
    · omega

/-- The injected call fails with `ENOENT`: `r = -2`, the result is `-1` and
`errno` is 2. -/
theorem result_capture_witness :
    ∃ s5, remote_syscall enoentKernel 20 ⟨1, 0⟩ MYCALL_IOCTL 3 4 5 exAmd64
        = some (-1, ⟨1, 0⟩, s5) ∧
      s5.errno = toInt32 (-toLong (exStepped.m.proc 1).regs.rax) ∧
      (-2 ^ 31 < toLong (exStepped.m.proc 1).regs.rax → s5.errno = 2) :=
  (result_capture enoentKernel 20 ⟨1, 0⟩ ⟨1, 0⟩ MYCALL_IOCTL 3 4 5 exAmd64 exInstalled exStepped
    exRegs (by decide) rfl rfl rfl rfl).1 (by decide)

/-! ## C7: fork pairing -/

theorem geteventmsg_msgs {K : Kernel} {pid : Int} {s s1 : State} {msg : Nat}
    (h : ptrace_geteventmsg K pid s = (some msg, s1)) : s1.msgs = msg :: s.msgs := by
  simp only [ptrace_geteventmsg] at h
  split at h
  · simp only [Prod.mk.injEq, Option.some.injEq] at h
    rw [← h.2, ← h.1]
  · simp at h

theorem geteventmsg_fail {K : Kernel} {pid : Int} {s s1 : State}
    (h : ptrace_geteventmsg K pid s = (none, s1)) : s1.msgs = s.msgs := by
  simp only [ptrace_geteventmsg] at h
  split at h
  · simp at h
  · simp only [Prod.mk.injEq] at h
    rw [← h.2]

theorem singlestep_msgs {K : Kernel} {pid : Int} {s s1 : State} {r : Option Nat}
    (h : ptrace_singlestep K pid s = (r, s1)) : s1.msgs = s.msgs := by
  simp only [ptrace_singlestep] at h
  split at h <;>
  · simp only [Prod.mk.injEq] at h
    rw [← h.2]

theorem childAfter_snoc (old : Int) (msg : Nat) (new : List Nat) :
    childAfter (toInt32 (msg : Int)) new = childAfter old (new ++ [msg]) := by
  cases new with
  | nil => simp only [childAfter, List.nil_append]
  | cons a l => simp only [childAfter, List.cons_append]

/-- The `child` field after the single-step loop is the newest event message
delivered during the loop, if there is one. -/
theorem singlestep_loop_child (K : Kernel) :
    ∀ (k : Nat) (t t1 : mytrace) (s s1 : State) (e : StepEnd),
      singlestep_loop K k t s = some (e, t1, s1) →
      ∃ new, s1.msgs = new ++ s.msgs ∧ t1.child = childAfter t.child new := by
  intro k
  induction k with
  | zero => intro t t1 s s1 e h; simp [singlestep_loop] at h
  | succ k ih =>
    intro t t1 s s1 e h
    simp only [singlestep_loop] at h
    split at h
    · rename_i s2 hs
      simp only [Option.some.injEq, Prod.mk.injEq] at h
      rw [← h.2.1, ← h.2.2]
      exact ⟨[], singlestep_msgs hs, rfl⟩
    · rename_i status s2 hs
      have h1 := singlestep_msgs hs
      split at h
      · simp only [Option.some.injEq, Prod.mk.injEq] at h
        rw [← h.2.1, ← h.2.2]
        exact ⟨[], h1, rfl⟩
      · split at h
        · obtain ⟨new, i1, i2⟩ := ih _ _ _ _ _ h
          exact ⟨new, by rw [i1, h1], i2⟩
        · split at h
          · split at h
            · rename_i s3 hm
              simp only [Option.some.injEq, Prod.mk.injEq] at h
              rw [← h.2.1, ← h.2.2]
              exact ⟨[], by rw [geteventmsg_fail hm, h1]; rfl, rfl⟩
            · rename_i msg s3 hm
              obtain ⟨new, i1, i2⟩ := ih _ _ _ _ _ h
              refine ⟨new ++ [msg], ?_, ?_⟩
              · rw [i1, geteventmsg_msgs hm, h1, List.append_assoc]
                rfl
              · rw [i2]
                exact childAfter_snoc t.child msg new
          · split at h
            · simp only [Option.some.injEq, Prod.mk.injEq] at h
              rw [← h.2.1, ← h.2.2]
              exact ⟨[], h1, rfl⟩
            · split at h
              · simp only [Option.some.injEq, Prod.mk.injEq] at h
                rw [← h.2.1, ← h.2.2]
                exact ⟨[], h1, rfl⟩
              · simp only [Option.some.injEq, Prod.mk.injEq] at h
                rw [← h.2.1, ← h.2.2]
                exact ⟨[], h1, rfl⟩

theorem remote_syscall_child (K : Kernel) (fuel : Nat) (t t1 : mytrace)
    (call arg1 arg2 arg3 v : Int) (s s1 : State)
    (h : remote_syscall K fuel t call arg1 arg2 arg3 s = some (v, t1, s1)) :
    ∃ new, s1.msgs = new ++ s.msgs ∧ t1.child = childAfter t.child new := by
  simp only [remote_syscall] at h
  split at h
  · simp only [Option.some.injEq, Prod.mk.injEq] at h
    rw [← h.2.1, ← h.2.2]
    exact ⟨[], rfl, rfl⟩
  · split at h
    · simp at h
    · rename_i s3 hi
      simp only [Option.some.injEq, Prod.mk.injEq] at h
      rw [← h.2.1, ← h.2.2]
      exact ⟨[], steps_msgs (install_steps K _ _ _ _ _ _ _ _ _ hi), rfl⟩
    · rename_i oldregs s3 hi
      have h1 := steps_msgs (install_steps K _ _ _ _ _ _ _ _ _ hi)
      split at h
      · simp at h
      · rename_i v1 t2 s4 hl
        obtain ⟨new, i1, i2⟩ := singlestep_loop_child K _ _ _ _ _ _ hl
        simp only [Option.some.injEq, Prod.mk.injEq] at h
        rw [← h.2.1, ← h.2.2]
        exact ⟨new, by rw [i1, h1], i2⟩
      · rename_i t2 s4 hl
        obtain ⟨new, i1, i2⟩ := singlestep_loop_child K _ _ _ _ _ _ hl
        simp only [Option.some.injEq, Prod.mk.injEq] at h
        rw [← h.2.1, ← h.2.2]
        exact ⟨new, by rw [steps_msgs (capture_steps K t2 oldregs s4), i1, h1], i2⟩

theorem singlestep_some {K : Kernel} {pid : Int} {s s2 : State} {status : Nat}
    (h : ptrace_singlestep K pid s = (some status, s2)) :
    K.err pid Request.SINGLESTEP s.m = 0 ∧ status = wait_status K pid s ∧
      s2 = after_step K pid s := by
  simp only [ptrace_singlestep] at h
  split at h
  · rename_i he
    simp only [Prod.mk.injEq, Option.some.injEq] at h
    exact ⟨he, h.1.symm, h.2.symm⟩
  · simp at h

theorem geteventmsg_some {K : Kernel} {pid : Int} {s s3 : State} {msg : Nat}
    (h : ptrace_geteventmsg K pid s = (some msg, s3)) :
    K.err pid Request.GETEVENTMSG s.m = 0 ∧ msg = K.eventmsg pid s.m := by
  simp only [ptrace_geteventmsg] at h
  split at h
  · rename_i he
    simp only [Prod.mk.injEq, Option.some.injEq] at h
    exact ⟨he, h.1.symm⟩
  · simp at h

/-- Every event message the single-step loop stores was fetched at a
fork-event stop of the target reached during the loop. -/
theorem singlestep_loop_fork_msgs (K : Kernel) :
    ∀ (k : Nat) (t t1 : mytrace) (s s1 : State) (e : StepEnd),
      singlestep_loop K k t s = some (e, t1, s1) →
      ∃ new, s1.msgs = new ++ s.msgs ∧ t1.child = childAfter t.child new ∧
        ∀ msg ∈ new, ∃ s0, Steps K t.pid true s s0 ∧ fork_stop K t.pid s0 ∧
          msg = K.eventmsg t.pid (after_step K t.pid s0).m := by
  intro k
  induction k with
  | zero => intro t t1 s s1 e h; simp [singlestep_loop] at h
  | succ k ih =>
    intro t t1 s s1 e h
    simp only [singlestep_loop] at h
    split at h
    · rename_i s2 hs
      simp only [Option.some.injEq, Prod.mk.injEq] at h
      rw [← h.2.1, ← h.2.2]
      exact ⟨[], singlestep_msgs hs, rfl, by intro msg hm; simp at hm⟩
    · rename_i status s2 hs
      have h1 := singlestep_msgs hs
      have hst := singlestep_prim hs
      split at h
      · simp only [Option.some.injEq, Prod.mk.injEq] at h
        rw [← h.2.1, ← h.2.2]
        exact ⟨[], h1, rfl, by intro msg hm; simp at hm⟩
      · rename_i hex
        split at h
        · obtain ⟨new, i1, i2, i3⟩ := ih _ _ _ _ _ h
          refine ⟨new, by rw [i1, h1], i2, ?_⟩
          intro msg hm
          obtain ⟨s0, j1, j2, j3⟩ := i3 msg hm
          exact ⟨s0, hst.then j1, j2, j3⟩
        · rename_i hsig
          split at h
          · rename_i hev
            split at h
            · rename_i s3 hm
              simp only [Option.some.injEq, Prod.mk.injEq] at h
              rw [← h.2.1, ← h.2.2]
              exact ⟨[], by rw [geteventmsg_fail hm, h1]; rfl, rfl,
                by intro msg hm; simp at hm⟩
            · rename_i msg0 s3 hm
              obtain ⟨new, i1, i2, i3⟩ := ih _ _ _ _ _ h
              obtain ⟨g1, g2, g3⟩ := singlestep_some hs
              obtain ⟨m1, m2⟩ := geteventmsg_some hm
              refine ⟨new ++ [msg0], ?_, ?_, ?_⟩
              · rw [i1, geteventmsg_msgs hm, h1, List.append_assoc]
                rfl
              · rw [i2]
                exact childAfter_snoc t.child msg0 new
              · intro msg hmem
                rcases List.mem_append.mp hmem with hmem | hmem
                · obtain ⟨s0, j1, j2, j3⟩ := i3 msg hmem
                  exact ⟨s0, (hst.then (eventmsg_prim hm)).then j1, j2, j3⟩
                · have hmsg : msg = msg0 := by simpa using hmem
                  subst hmsg
                  subst g2
                  subst g3
                  refine ⟨s, Relation.ReflTransGen.refl, ⟨g1, ?_, ?_, ?_, hev, m1⟩, m2⟩
                  · simpa using hex
                  · cases hw : WIFSTOPPED (wait_status K t.pid s) with
                    | true => rfl
                    | false => simp [hw] at hsig
                  · cases hw : WIFSTOPPED (wait_status K t.pid s) with
                    | true => simpa [hw] using hsig
                    | false => simp [hw] at hsig
          · split at h
            · simp only [Option.some.injEq, Prod.mk.injEq] at h
              rw [← h.2.1, ← h.2.2]
              exact ⟨[], h1, rfl, by intro msg hm; simp at hm⟩
            · split at h
              · simp only [Option.some.injEq, Prod.mk.injEq] at h
                rw [← h.2.1, ← h.2.2]
                exact ⟨[], h1, rfl, by intro msg hm; simp at hm⟩
              · simp only [Option.some.injEq, Prod.mk.injEq] at h
                rw [← h.2.1, ← h.2.2]
                exact ⟨[], h1, rfl, by intro msg hm; simp at hm⟩

theorem remote_syscall_fork_msgs (K : Kernel) (fuel : Nat) (t t1 : mytrace)
    (call arg1 arg2 arg3 v : Int) (s s1 : State)
    (h : remote_syscall K fuel t call arg1 arg2 arg3 s = some (v, t1, s1)) :
    ∃ new, s1.msgs = new ++ s.msgs ∧ t1.child = childAfter t.child new ∧
      ∀ msg ∈ new, ∃ s0, Steps K t.pid true s s0 ∧ fork_stop K t.pid s0 ∧
        msg = K.eventmsg t.pid (after_step K t.pid s0).m := by
  simp only [remote_syscall] at h
  split at h
  · simp only [Option.some.injEq, Prod.mk.injEq] at h
    rw [← h.2.1, ← h.2.2]
    exact ⟨[], rfl, rfl, by intro msg hm; simp at hm⟩
  · split at h
    · simp at h
    · rename_i s3 hi
      simp only [Option.some.injEq, Prod.mk.injEq] at h
      rw [← h.2.1, ← h.2.2]
      exact ⟨[], steps_msgs (install_steps K _ _ _ _ _ _ _ _ _ hi), rfl,
        by intro msg hm; simp at hm⟩
    · rename_i oldregs s3 hi
      have h1 := steps_msgs (install_steps K _ _ _ _ _ _ _ _ _ hi)
      have hst := (install_steps K _ _ _ _ _ _ _ _ _ hi).lift
      split at h
      · simp at h
      · rename_i v1 t2 s4 hl
        obtain ⟨new, i1, i2, i3⟩ := singlestep_loop_fork_msgs K _ _ _ _ _ _ hl
        simp only [Option.some.injEq, Prod.mk.injEq] at h
        rw [← h.2.1, ← h.2.2]
        refine ⟨new, by rw [i1, h1], i2, ?_⟩
        intro msg hm
        obtain ⟨s0, j1, j2, j3⟩ := i3 msg hm
        exact ⟨s0, hst.then j1, j2, j3⟩
      · rename_i t2 s4 hl
        obtain ⟨new, i1, i2, i3⟩ := singlestep_loop_fork_msgs K _ _ _ _ _ _ hl
        simp only [Option.some.injEq, Prod.mk.injEq] at h
        rw [← h.2.1, ← h.2.2]
        refine ⟨new, by rw [steps_msgs (capture_steps K t2 oldregs s4), i1, h1], i2, ?_⟩
        intro msg hm
        obtain ⟨s0, j1, j2, j3⟩ := i3 msg hm
        exact ⟨s0, hst.then j1, j2, j3⟩

/-- C7. Fork pairing: for every parent handle, `mytrace_fork` asks for fork
events (`PTRACE_SETOPTIONS` with `PTRACE_O_TRACEFORK`) and then runs
`remote_syscall` with `MYCALL_FORK`; the handle `c` it returns has `c.pid` equal
to the parent's `child` field after that call, which holds the newest event
message fetched during it, every such message being fetched at a `SIGTRAP`
stop of the parent tagged with the fork event; `c.child = 0` and the parent's
`pid` field is unchanged. -/
theorem fork_pairing (K : Kernel) (fuel : Nat) (t c t1 : mytrace) (s s1 : State)
    (h : mytrace_fork K fuel t s = some (c, t1, s1)) :
    c.pid = t1.child ∧ c.child = 0 ∧ t1.pid = t.pid ∧
    (∃ v, remote_syscall K fuel t MYCALL_FORK 0 0 0
      (ptrace_setoptions t.pid PTRACE_O_TRACEFORK s) = some (v, t1, s1)) ∧
    (∃ rest, s1.log = rest ++ (t.pid, Request.SETOPTIONS PTRACE_O_TRACEFORK) :: s.log) ∧
    ∃ new, s1.msgs = new ++ s.msgs ∧ t1.child = childAfter t.child new ∧
      (∀ msg rest, new = msg :: rest → msg < 2 ^ 31 → c.pid = (msg : Int)) ∧
      ∀ msg ∈ new, ∃ s0,
        Steps K t.pid true (ptrace_setoptions t.pid PTRACE_O_TRACEFORK s) s0 ∧
        fork_stop K t.pid s0 ∧ msg = K.eventmsg t.pid (after_step K t.pid s0).m := by
  simp only [mytrace_fork] at h
  split at h
  · simp at h
  · rename_i v t2 s2 hrs
    simp only [Option.some.injEq, Prod.mk.injEq] at h
    obtain ⟨hc, ht, hs⟩ := h
    subst hc ht hs
    obtain ⟨hpid, hsteps⟩ := remote_syscall_steps K _ _ _ _ _ _ _ _ _ _ hrs
    obtain ⟨new, i1, i2, i3⟩ := remote_syscall_fork_msgs K _ _ _ _ _ _ _ _ _ _ hrs
    obtain ⟨rest, hlog⟩ := steps_log hsteps
    refine ⟨rfl, rfl, hpid, ⟨v, hrs⟩, ⟨rest, hlog⟩, new, i1, i2, ?_, i3⟩
    intro msg rest1 hnew hlt
    show t2.child = (msg : Int)
    rw [i2, hnew]
    exact toInt32_small _ (by omega) (by omega)

/-- Under `forkKernel` the FORK injection (`rax = 57` in the registers
installed) meets one fork-event stop with message 42: the new handle is
`(42, 0)` and the parent handle `(1, 42)`. -/
theorem fork_pairing_witness :
    mytrace_fork forkKernel 20 ⟨1, 0⟩ exAmd64 = some (⟨42, 0⟩, ⟨1, 42⟩, exForked) ∧
    exForked.msgs = [42] ∧
    (install forkKernel 20 ⟨1, 0⟩ MYCALL_FORK 0 0 0
      (ptrace_setoptions 1 PTRACE_O_TRACEFORK exAmd64)).map (fun r => r.2) =
        some exForkInstalled ∧
    ((exForkInstalled.m.proc 1).regs.rax, (exForkInstalled.m.proc 1).regs.rip) = (57, 0xFFE) ∧
    fork_stop forkKernel 1 exForkInstalled ∧
    (∃ v, remote_syscall forkKernel 20 ⟨1, 0⟩ MYCALL_FORK 0 0 0
      (ptrace_setoptions 1 PTRACE_O_TRACEFORK exAmd64) = some (v, ⟨1, 42⟩, exForked)) ∧
    (∃ rest, exForked.log = rest ++ (1, Request.SETOPTIONS PTRACE_O_TRACEFORK) :: exAmd64.log) ∧
    ∃ new, exForked.msgs = new ++ exAmd64.msgs ∧ (42 : Int) = childAfter 0 new ∧
      (∀ msg rest, new = msg :: rest → msg < 2 ^ 31 → (42 : Int) = (msg : Int)) ∧
      ∀ msg ∈ new, ∃ s0,
        Steps forkKernel 1 true (ptrace_setoptions 1 PTRACE_O_TRACEFORK exAmd64) s0 ∧
        fork_stop forkKernel 1 s0 ∧ msg = forkKernel.eventmsg 1 (after_step forkKernel 1 s0).m :=
  ⟨rfl, by decide, rfl, by decide, by decide,
    (fork_pairing forkKernel 20 ⟨1, 0⟩ ⟨42, 0⟩ ⟨1, 42⟩ exAmd64 exForked rfl).2.2.2⟩

/-! ## C8: the candidate filter -/

/-- C8 (failing inputs). Descriptor 5 is open on the directory `/dev`: its
link text does not contain `/dev/ptmx`, yet `ptsname_by_fd` single-steps the
forked child (pid 42) through the `TIOCGPTN` request, which fails.  Descriptor
6 has the link text `/srv/jail/dev/ptmx`, which contains `/dev/ptmx`, yet
`ptsname_by_fd` returns `-1` without a single step of the child. -/
theorem ptsname_by_fd_filter_inverted :
    strstr "/dev".toList "/dev/ptmx".toList = none ∧
    (ptsname_by_fd inspectKernel exProcfs 20 1 5 (-1) exAmd64).map
        (fun r => (r.1, r.2.1, stepped 42 r.2.2.log)) = some (-1, -1, true) ∧
    (strstr "/srv/jail/dev/ptmx".toList "/dev/ptmx".toList).isSome = true ∧
    (ptsname_by_fd inspectKernel exProcfs 20 1 6 (-1) exAmd64).map
        (fun r => (r.1, r.2.1, stepped 42 r.2.2.log)) = some (-1, -1, false) := by
  decide

/-! ## C9: the result of `ptsname_list_all` -/

theorem range_map_store (ids : Nat → Int) (n : Nat) (v : Int) :
    (List.range (n + 1)).map (fun i => if i = n then v else ids i)
      = (List.range n).map ids ++ [v] := by
  rw [List.range_succ, List.map_append]
  congr 1
  · apply List.map_congr_left
    intro i hi
    rw [if_neg (by have := List.mem_range.mp hi; omega)]
  · simp

theorem take_of_full (pre l : List Int) (h : pre.length = 4096) :
    (pre ++ l).take 4096 = pre := by
  rw [List.take_append_of_le_length (by omega), List.take_of_length_le (by omega)]

/-- The scan against the uncut list of its discoveries. -/
theorem scan_loop_spec (K : Kernel) (P : Procfs) (fuel : Nat) (pid : Int) :
    ∀ (entries : List String) (child : mytrace) (a : Scan) (s : State) (l : List Int),
      0 ≤ a.num_ids → a.num_ids ≤ 4096 →
      scan_uncut K P fuel pid entries child s = some l →
      ∃ a1 s1, scan_loop K P fuel pid entries child a s = some (a1, s1) ∧
        a1.num_ids = min (a.num_ids + l.length) 4096 ∧
        (List.range a1.num_ids.toNat).map a1.pts_ids
          = ((List.range a.num_ids.toNat).map a.pts_ids ++ l).take 4096 := by
  intro entries
  induction entries with
  | nil =>
    intro child a s l h0 h1 hd
    simp only [scan_uncut, Option.some.injEq] at hd
    subst hd
    refine ⟨a, s, rfl, by simp; omega, ?_⟩
    rw [List.append_nil, List.take_of_length_le (by simp; omega)]
  | cons d rest ih =>
    intro child a s l h0 h1 hd
    by_cases hfull : a.num_ids < (MAX_PTYS : Int)
    · simp only [scan_loop, hfull, not_true_eq_false, if_false]
      simp only [scan_uncut] at hd
      split at hd
      · rename_i hl
        rw [if_pos hl]
        exact ih child a s l h0 h1 hd
      · rename_i hl
        rw [if_neg hl]
        split at hd
        · rename_i hn
          rw [if_pos hn]
          exact ih child a s l h0 h1 hd
        · rename_i hn
          rw [if_neg hn]
          split at hd
          · simp at hd
          · rename_i ret pts child1 s1 hp
            split at hd
            · simp at hd
            · rename_i l1 hd1
              simp only [Option.some.injEq] at hd
              by_cases hret : ret < 0
              · rw [if_pos hret] at hd ⊢
                subst hd
                exact ih child1 _ s1 _ h0 h1 hd1
              · rw [if_neg hret] at hd ⊢
                rw [if_neg (by omega)]
                subst hd
                have hM : a.num_ids < 4096 := hfull
                obtain ⟨a1, s2, e1, e2, e3⟩ := ih child1
                  { pts_ids := fun i => if i = a.num_ids.toNat then pts else a.pts_ids i,
                    num_ids := a.num_ids + 1,
                    ret := ret,
                    stores := a.stores ++ [a.num_ids],
                    probes := a.probes ++ [(ret, pts)] } s1 l1 (by simp only; omega)
                  (by simp only; omega) hd1
                refine ⟨a1, s2, e1, ?_, ?_⟩
                · rw [e2]
                  simp only [List.length_cons]
                  omega
                · rw [e3]
                  have ht : (a.num_ids + 1).toNat = a.num_ids.toNat + 1 := by omega
                  simp only [ht, range_map_store, List.append_assoc, List.singleton_append]
    · have hM : ¬ a.num_ids < 4096 := hfull
      have h4 : a.num_ids = 4096 := by omega
      simp only [scan_loop, hfull, not_false_eq_true, if_true]
      refine ⟨a, s, rfl, by omega, ?_⟩
      rw [take_of_full _ _ (by simp [h4])]

/-- The scan never stores outside the array and never counts past its size. -/
theorem scan_loop_bounds (K : Kernel) (P : Procfs) (fuel : Nat) (pid : Int) :
    ∀ (entries : List String) (child : mytrace) (a a1 : Scan) (s s1 : State),
      0 ≤ a.num_ids → a.num_ids ≤ 4096 → (∀ i ∈ a.stores, 0 ≤ i ∧ i < 4096) →
      scan_loop K P fuel pid entries child a s = some (a1, s1) →
      0 ≤ a1.num_ids ∧ a1.num_ids ≤ 4096 ∧ ∀ i ∈ a1.stores, 0 ≤ i ∧ i < 4096 := by
  intro entries
  induction entries with
  | nil =>
    intro child a a1 s s1 h0 h1 hs h
    simp only [scan_loop, Option.some.injEq, Prod.mk.injEq] at h
    rw [← h.1]
    exact ⟨h0, h1, hs⟩
  | cons d rest ih =>
    intro child a a1 s s1 h0 h1 hs h
    simp only [scan_loop] at h
    split at h
    · simp only [Option.some.injEq, Prod.mk.injEq] at h
      rw [← h.1]
      exact ⟨h0, h1, hs⟩
    · rename_i hfull
      have hM : a.num_ids < 4096 := by
        have := not_not.mp hfull
        exact this
      split at h
      · exact ih _ _ _ _ _ h0 h1 hs h
      · split at h
        · exact ih _ _ _ _ _ h0 h1 hs h
        · split at h
          · simp at h
          · split at h
            · exact ih _ _ _ _ _ (by simp only; exact h0) (by simp only; exact h1)
                (by simp only; exact hs) h
            · split at h
              · simp at h
              · refine ih _ _ _ _ _ (by simp only; omega) (by simp only; omega) ?_ h
                intro i hi
                simp only [List.mem_append, List.mem_singleton] at hi
                rcases hi with hi | hi
                · exact hs i hi
                · omega

/-- Relative to the link-text test of the code: when attach succeeds and
`*num_ids` is 0 on entry, the first `*num_ids` slots of the array are the
`pts_number` of the probed entries whose `TIOCGPTN` call returned `>= 0`
(failing probes are passed over and the scan goes on), in procfs order, cut off
after the first 4096; `*num_ids` is at most 4096 and no store is made at an
index of 4096 or more. -/
theorem list_all_scan (K : Kernel) (P : Procfs) (fuel : Nat) (pid : Int) (s s1 s2 : State)
    (parent child parent1 : mytrace) (l : List Int)
    (hat : mytrace_attach K pid s = (some parent, s1))
    (hf : mytrace_fork K fuel parent s1 = some (child, parent1, s2))
    (hd : scan_uncut K P fuel pid (P.readdir pid) child s2 = some l) :
    (∃ ret ids a s3, ptsname_list_all K P fuel pid 0 s = some (ret, some ids, a, s3) ∧
      a.num_ids = min (l.length : Int) 4096 ∧
      (List.range a.num_ids.toNat).map ids = l.take 4096) ∧
    (∀ ret ids a s3, ptsname_list_all K P fuel pid 0 s = some (ret, ids, a, s3) →
      0 ≤ a.num_ids ∧ a.num_ids ≤ 4096 ∧ ∀ i ∈ a.stores, 0 ≤ i ∧ i < 4096) := by
  constructor
  · obtain ⟨a1, s3, e1, e2, e3⟩ := scan_loop_spec K P fuel pid (P.readdir pid) child
      { pts_ids := fun _ => 0, num_ids := 0, ret := -1, stores := [], probes := [] } s2 l
      (le_refl _) (by decide) hd
    refine ⟨a1.ret, a1.pts_ids, a1, (mytrace_detach parent1 s3).2, ?_, ?_, ?_⟩
    · simp only [ptsname_list_all, hat, hf, e1]
    · rw [e2]
      simp
    · rw [e3]
      simp
  · intro ret ids a s3 h
    simp only [ptsname_list_all, hat, hf] at h
    split at h
    · simp at h
    · rename_i a1 s4 hsc
      simp only [Option.some.injEq, Prod.mk.injEq] at h
      rw [← h.2.2.1]
      exact scan_loop_bounds K P fuel pid _ _ _ _ _ _ (le_refl _) (by decide)
        (by intro i hi; simp at hi) hsc

/-- The example target: descriptors 3 and 4 yield 5 and 9, the probe of the
directory descriptor 5 fails and is passed over. -/
theorem list_all_scan_example :
    scan_uncut inspectKernel exProcfs 20 1 (exProcfs.readdir 1) ⟨42, 0⟩ exChildReady
      = some [5, 9] ∧
    ∃ ret ids a s3,
      ptsname_list_all inspectKernel exProcfs 20 1 0 exAmd64 = some (ret, some ids, a, s3) ∧
      a.num_ids = min (([5, 9] : List Int).length : Int) 4096 ∧
      (List.range a.num_ids.toNat).map ids = ([5, 9] : List Int).take 4096 :=
  ⟨by decide,
    (list_all_scan inspectKernel exProcfs 20 1 exAmd64 exAttached exChildReady ⟨1, 0⟩ ⟨42, 0⟩
      ⟨1, 42⟩ [5, 9] rfl rfl (by decide)).1⟩

/-- C9 (failing input). Descriptor 6 of the example target has the link text
`/srv/jail/dev/ptmx`, so it is a candidate, and its `TIOCGPTN` call would
return 0 with index 11: the list of the claim is `[5, 9, 11]`.  But
`ptsname_list_all` passes descriptor 6 over without a call (the arguments of
`strstr` are swapped, the defect of C8) and returns `*num_ids = 2` with the
slots `[5, 9]`. -/
theorem list_all_misses_candidate :
    mytrace_attach inspectKernel 1 exAmd64 = (some ⟨1, 0⟩, exAttached) ∧
    mytrace_fork inspectKernel 20 ⟨1, 0⟩ exAttached = some (⟨42, 0⟩, ⟨1, 42⟩, exChildReady) ∧
    spec_candidate (linkname_of (exProcfs.readlink 1 "6")) = true ∧
    not_a_pty (linkname_of (exProcfs.readlink 1 "6")) = true ∧
    discovered inspectKernel exProcfs 20 1 (exProcfs.readdir 1) ⟨42, 0⟩ exChildReady
      = some [5, 9, 11] ∧
    (ptsname_list_all inspectKernel exProcfs 20 1 0 exAmd64).map
        (fun r => (r.2.2.1.num_ids,
          (List.range r.2.2.1.num_ids.toNat).map ((r.2.1).getD (fun _ => 0))))
      = some (2, [5, 9]) :=
  ⟨rfl, rfl, by decide, by decide, by decide, by decide⟩

/-! ## C10: output ordering -/

theorem list_all_count (K : Kernel) (P : Procfs) (fuel : Nat) (pid ret : Int)
    (ids : Option (Nat → Int)) (a : Scan) (s s3 : State)
    (h : ptsname_list_all K P fuel pid 0 s = some (ret, ids, a, s3)) :
    0 ≤ a.num_ids ∧ a.num_ids ≤ 4096 := by
  simp only [ptsname_list_all] at h
  split at h
  · simp only [Option.some.injEq, Prod.mk.injEq] at h
    rw [← h.2.2.1]
    exact ⟨le_refl _, by decide⟩
  · split at h
    · simp at h
    · split at h
      · simp at h
      · rename_i a1 s4 hsc
        simp only [Option.some.injEq, Prod.mk.injEq] at h
        rw [← h.2.2.1]
        have := scan_loop_bounds K P fuel pid _ _ _ _ _ _ (le_refl _) (by decide)
          (by intro i hi; simp at hi) hsc
        exact ⟨this.1, this.2.1⟩

theorem print_loop_eq (pid : Int) (ids : Nat → Int) (n : Nat) :
    print_loop pid ids n = (((List.range n).map ids).reverse).map (result_line pid) := by
  induction n with
  | zero => rfl
  | succ n ih =>
    rw [print_loop, ih, List.range_succ, List.map_append, List.reverse_append]
    rfl

theorem print_loop_length (pid : Int) (ids : Nat → Int) (n : Nat) :
    (print_loop pid ids n).length = n := by
  induction n with
  | zero => rfl
  | succ n ih => rw [print_loop, List.length_cons, ih]

theorem print_loop_line (pid : Int) (ids : Nat → Int) :
    ∀ (n k : Nat), 1 ≤ k → k ≤ n →
      (print_loop pid ids n).getD (k - 1) "" = result_line pid (ids (n - k)) := by
  intro n
  induction n with
  | zero => intro k h1 h2; omega
  | succ n ih =>
    intro k h1 h2
    rw [print_loop]
    match k, h1, h2 with
    | 1, _, _ => simp
    | i + 2, _, h3 =>
      have := ih (i + 1) (by omega) (by omega)
      simp only [Nat.add_sub_cancel] at this
      have e1 : i + 2 - 1 = i + 1 := by omega
      have e2 : n + 1 - (i + 2) = n - (i + 1) := by omega
      rw [e1, e2, List.getD_cons_succ, this]

/-- C10. Output ordering: for every result of `ptsname_list_all` holding `N`
indices `ids[0..N-1]` in discovery order, the one-argument command line prints
the summary line with the count `N` and then exactly `N` result lines, the
`k`-th of which (`k = 1..N`) carries `ids[N-k]`: the indices appear in reverse
order of discovery. -/
theorem output_ordering (K : Kernel) (P : Procfs) (fuel : Nat) (prog a1 : String) (s s1 : State)
    (ret : Int) (ids : Option (Nat → Int)) (a : Scan)
    (herr : (strtol a1 s.errno).2 = 0)
    (h : ptsname_list_all K P fuel (strtol a1 s.errno).1 0
      { s with errno := (strtol a1 s.errno).2 } = some (ret, ids, a, s1)) :
    main K P fuel [prog, a1] s
      = some (ret,
          summary_line a.num_ids (strtol a1 s.errno).1
            :: (((List.range a.num_ids.toNat).map (ids.getD (fun _ => 0))).reverse).map
                (result_line (strtol a1 s.errno).1),
          s1) ∧
    (a.num_ids.toNat : Int) = a.num_ids ∧
    (print_loop (strtol a1 s.errno).1 (ids.getD (fun _ => 0)) a.num_ids.toNat).length
      = a.num_ids.toNat ∧
    ∀ k, 1 ≤ k → k ≤ a.num_ids.toNat →
      (print_loop (strtol a1 s.errno).1 (ids.getD (fun _ => 0)) a.num_ids.toNat).getD (k - 1) ""
        = result_line (strtol a1 s.errno).1 ((ids.getD (fun _ => 0)) (a.num_ids.toNat - k)) := by
  have hn := list_all_count K P fuel _ ret ids a _ s1 h
  refine ⟨?_, by omega, print_loop_length _ _ _, print_loop_line _ _ _⟩
  rw [herr] at h
  simp only [main, herr, ne_eq, not_true_eq_false, if_false, h, print_loop_eq]

/-- Discovered 5 then 9: the summary line counts 2, then `/dev/pts/9`, then
`/dev/pts/5`. -/
theorem output_ordering_witness :
    (main inspectKernel exProcfs 20 ["ptmx_resolve", "1"] exAmd64).map (fun r => r.2.1)
      = some ["There were 2 /dev/pts devices discovered for pid=1",
              "target_pid=1 pts=/dev/pts/9", "target_pid=1 pts=/dev/pts/5"] ∧
    main inspectKernel exProcfs 20 ["ptmx_resolve", "1"] exAmd64
      = some (exListed.1,
          summary_line exListed.2.2.1.num_ids 1
            :: (((List.range exListed.2.2.1.num_ids.toNat).map
                  (exListed.2.1.getD (fun _ => 0))).reverse).map (result_line 1),
          exListed.2.2.2) :=
  ⟨by decide,
    (output_ordering inspectKernel exProcfs 20 "ptmx_resolve" "1" exAmd64 exListed.2.2.2
      exListed.1 exListed.2.1 exListed.2.2.1 rfl rfl).1⟩

/-! ## C11: what `ptsname_by_fd` leaves in `*pts_id` -/

theorem singlestep_granted (K : Kernel) (pid : Int) (s : State)
    (hstep : K.err pid Request.SINGLESTEP s.m = 0) :
    ptrace_singlestep K pid s = (some (wait_status K pid s), after_step K pid s) := by
  simp only [ptrace_singlestep, hstep, if_true, wait_status, after_step]

theorem geteventmsg_granted (K : Kernel) (pid : Int) (s : State)
    (h : K.err pid Request.GETEVENTMSG s.m = 0) :
    ptrace_geteventmsg K pid s = (some (K.eventmsg pid s.m), after_eventmsg K pid s) := by
  simp only [ptrace_geteventmsg, h, if_true, after_eventmsg]

theorem singlestep_loop_return0 (K : Kernel) (k : Nat) (t : mytrace) (s : State)
    (hstep : K.err t.pid Request.SINGLESTEP s.m = 0)
    (h : WIFEXITED (wait_status K t.pid s) = true ∨
      (WIFEXITED (wait_status K t.pid s) = false ∧ WIFSTOPPED (wait_status K t.pid s) = true ∧
        WSTOPSIG (wait_status K t.pid s) = SIGTRAP ∧
        (event_code (wait_status K t.pid s) = PTRACE_EVENT_EXEC ∨
          event_code (wait_status K t.pid s) = PTRACE_EVENT_EXIT))) :
    singlestep_loop K (k + 1) t s = some (StepEnd.returned 0, t, after_step K t.pid s) := by
  have e4 : ¬ PTRACE_EVENT_EXEC = PTRACE_EVENT_FORK := by decide
  have e6 : ¬ PTRACE_EVENT_EXIT = PTRACE_EVENT_FORK := by decide
  have e46 : ¬ PTRACE_EVENT_EXEC = PTRACE_EVENT_EXIT := by decide
  simp only [singlestep_loop, singlestep_granted K t.pid s hstep]
  rcases h with h | ⟨h1, h2, h3, h4⟩
  · simp only [h, if_true]
  · have hev : (wait_status K t.pid s >>> 16) &&& 0xffff = event_code (wait_status K t.pid s) :=
      rfl
    simp only [h1, h2, h3, hev, Bool.false_eq_true, if_false, Bool.not_true, bne_self_eq_false,
      Bool.or_self]
    rcases h4 with h4 | h4
    · simp only [h4, e4, e46, if_false, if_true]
    · simp only [h4, e6, if_false, if_true]

/-- C12. In the single-step loop of `remote_syscall`: if the wait status
reports that the target exited, or a `SIGTRAP` stop tagged with the exec or the
exit event, `remote_syscall` returns 0 at once, its last request being that
single step (no register is read or written afterwards); a `SIGTRAP` stop
tagged with the fork event stores the event message in the handle's `child`
field and single-stepping goes on; a status that is not a `SIGTRAP` stop is
ignored and single-stepping goes on; a `SIGTRAP` stop with any other event code
leaves the loop, and the result is captured. -/
theorem singlestep_events (K : Kernel) (k : Nat) (t : mytrace) (s : State)
    (hstep : K.err t.pid Request.SINGLESTEP s.m = 0) :
    (WIFEXITED (wait_status K t.pid s) = true ∨
      (WIFEXITED (wait_status K t.pid s) = false ∧ WIFSTOPPED (wait_status K t.pid s) = true ∧
        WSTOPSIG (wait_status K t.pid s) = SIGTRAP ∧
        (event_code (wait_status K t.pid s) = PTRACE_EVENT_EXEC ∨
          event_code (wait_status K t.pid s) = PTRACE_EVENT_EXIT)) →
      singlestep_loop K (k + 1) t s = some (StepEnd.returned 0, t, after_step K t.pid s) ∧
      (after_step K t.pid s).log = (t.pid, Request.SINGLESTEP) :: s.log ∧
      ∀ call a1 a2 a3 s0 oldregs, 0 ≤ call ∧ call < 11 →
        install K (k + 1) t call a1 a2 a3 s0 = some (some oldregs, s) →
        remote_syscall K (k + 1) t call a1 a2 a3 s0 = some (0, t, after_step K t.pid s)) ∧
    (WIFEXITED (wait_status K t.pid s) = false → WIFSTOPPED (wait_status K t.pid s) = true →
      WSTOPSIG (wait_status K t.pid s) = SIGTRAP →
      event_code (wait_status K t.pid s) = PTRACE_EVENT_FORK →
      K.err t.pid Request.GETEVENTMSG (after_step K t.pid s).m = 0 →
      singlestep_loop K (k + 1) t s
        = singlestep_loop K k
            { t with child := toInt32 (K.eventmsg t.pid (after_step K t.pid s).m : Int) }
            (after_eventmsg K t.pid (after_step K t.pid s))) ∧
    (WIFEXITED (wait_status K t.pid s) = false →
      (WIFSTOPPED (wait_status K t.pid s) = false ∨ WSTOPSIG (wait_status K t.pid s) ≠ SIGTRAP) →
      singlestep_loop K (k + 1) t s = singlestep_loop K k t (after_step K t.pid s)) ∧
    (WIFEXITED (wait_status K t.pid s) = false → WIFSTOPPED (wait_status K t.pid s) = true →
      WSTOPSIG (wait_status K t.pid s) = SIGTRAP →
      event_code (wait_status K t.pid s) ≠ PTRACE_EVENT_FORK →
      event_code (wait_status K t.pid s) ≠ PTRACE_EVENT_EXIT →
      event_code (wait_status K t.pid s) ≠ PTRACE_EVENT_EXEC →
      singlestep_loop K (k + 1) t s = some (StepEnd.trapped, t, after_step K t.pid s) ∧
      ∀ call a1 a2 a3 s0 oldregs, 0 ≤ call ∧ call < 11 →
        install K (k + 1) t call a1 a2 a3 s0 = some (some oldregs, s) →
        remote_syscall K (k + 1) t call a1 a2 a3 s0
          = some ((capture K t oldregs (after_step K t.pid s)).1, t,
              (capture K t oldregs (after_step K t.pid s)).2)) := by
  have hev : (wait_status K t.pid s >>> 16) &&& 0xffff = event_code (wait_status K t.pid s) :=
    rfl
  have hc : ∀ call : Int, 0 ≤ call ∧ call < 11 →
      ¬ (call < 0 ∨ call ≥ (syscallnames.length : Int)) := by
    intro call h
    simp only [syscallnames, List.length_cons, List.length_nil]
    omega
  refine ⟨?_, ?_, ?_, ?_⟩
  · intro h
    have h0 := singlestep_loop_return0 K k t s hstep h
    refine ⟨h0, rfl, ?_⟩
    intro call a1 a2 a3 s0 oldregs hcall hi
    simp only [remote_syscall, hc call hcall, if_false, hi, h0]
  · intro h1 h2 h3 h4 hmsg
    simp only [singlestep_loop, singlestep_granted K t.pid s hstep, h1, h2, h3, hev, h4,
      Bool.false_eq_true, if_false, Bool.not_true, bne_self_eq_false, Bool.or_self, if_true,
      geteventmsg_granted K t.pid _ hmsg]
  · intro h1 h2
    have hb : (!WIFSTOPPED (wait_status K t.pid s) ||
        WSTOPSIG (wait_status K t.pid s) != SIGTRAP) = true := by
      rcases h2 with h2 | h2
      · simp [h2]
      · simp [h2]
    simp only [singlestep_loop, singlestep_granted K t.pid s hstep, h1, Bool.false_eq_true,
      if_false, hb, if_true]
  · intro h1 h2 h3 h4 h5 h6
    have h0 : singlestep_loop K (k + 1) t s
        = some (StepEnd.trapped, t, after_step K t.pid s) := by
      simp only [singlestep_loop, singlestep_granted K t.pid s hstep, h1, h2, h3, hev, h4, h5,
        h6, Bool.false_eq_true, if_false, Bool.not_true, bne_self_eq_false, Bool.or_self]
    refine ⟨h0, ?_⟩
    intro call a1 a2 a3 s0 oldregs hcall hi
    simp only [remote_syscall, hc call hcall, if_false, hi, h0]

/-- The exit event during `remote_syscall(t, MYCALL_EXIT, 0, 0, 0)`: the call
returns 0 right after the single step, and the registers last written are
the injected ones (`rip = 0xFFE`, `rax = 60`), not the saved ones. -/
theorem singlestep_events_witness :
    (remote_syscall exitKernel 20 ⟨1, 0⟩ MYCALL_EXIT 0 0 0 exAmd64).map
        (fun r => (r.1, lastSetregs r.2.2.log))
      = some (0, some { exRegs with rip := 0xFFE, rax := 60, rdi := 0, rsi := 0, rdx := 0 }) ∧
    remote_syscall exitKernel 20 ⟨1, 0⟩ MYCALL_EXIT 0 0 0 exAmd64
      = some (0, ⟨1, 0⟩, after_step exitKernel 1 exExitInstalled) :=
  ⟨by decide,
    ((singlestep_events exitKernel 19 ⟨1, 0⟩ exExitInstalled rfl).1
      (Or.inr ⟨by decide, by decide, by decide, Or.inr (by decide)⟩)).2.2
      MYCALL_EXIT 0 0 0 exAmd64 exRegs (by decide) rfl⟩

/-! ## C13: the rewind to `sysenter` -/

theorem byte_of_toNat (b : Byte) (c : Byte) (h : b.toNat = c.toNat) : b = c :=
  UInt8.eq_of_toBitVec_eq (BitVec.eq_of_toNat_eq h)

theorem low16_sysenter (w : Word) : low16 w = SYSENTER ↔ w 0 = 0x0F ∧ w 1 = 0x34 := by
  constructor
  · intro h
    have h0 := UInt8.toNat_lt_size (w 0)
    have h1 := UInt8.toNat_lt_size (w 1)
    simp only [UInt8.size] at h0 h1
    simp only [low16, SYSENTER] at h
    have e0 : (w 0).toNat = (0x0F : Byte).toNat := by
      have : (0x0F : Byte).toNat = 15 := by decide
      omega
    have e1 : (w 1).toNat = (0x34 : Byte).toNat := by
      have : (0x34 : Byte).toNat = 52 := by decide
      omega
    exact ⟨byte_of_toNat _ _ e0, byte_of_toNat _ _ e1⟩
  · intro h
    simp only [low16, h.1, h.2]
    decide

theorem peek_sysenter (K : Kernel) (pid : Int) (rip offset : Nat) (s : State) :
    low16 (ptrace_peektext K pid ((rip + 2 ^ 64 - offset) % 2 ^ 64) s).1 = SYSENTER
      ↔ sysenter_at K pid s.m rip offset := by
  simp only [ptrace_peektext, sysenter_at]
  split
  · rename_i h
    rw [low16_sysenter]
    simp only [readWord, Nat.add_zero, h, true_and]
  · rename_i h
    constructor
    · intro h1
      have : low16 minusOne ≠ SYSENTER := by decide
      exact absurd h1 this
    · intro h1
      exact absurd h1.1 h

theorem peek_machine (K : Kernel) (pid : Int) (a : Nat) (s : State) :
    (ptrace_peektext K pid a s).2.m = s.m := by
  simp only [ptrace_peektext]
  split <;> rfl

/-- What the backward scan returns: the first offset, counting up one by one
from the start, at which `sysenter` is found. -/
theorem sysenter_scan_found (K : Kernel) (t : mytrace) (rip : Nat) :
    ∀ (k offset : Nat) (s s1 : State) (o : Nat),
      sysenter_scan K t rip k offset s = some (o, s1) →
      offset ≤ o ∧ o < offset + k ∧ sysenter_at K t.pid s.m rip o ∧
      (∀ j, offset ≤ j → j < o → ¬ sysenter_at K t.pid s.m rip j) ∧ s1.m = s.m := by
  intro k
  induction k with
  | zero => intro offset s s1 o h; simp [sysenter_scan] at h
  | succ k ih =>
    intro offset s s1 o h
    simp only [sysenter_scan] at h
    split at h
    · rename_i hne
      obtain ⟨i1, i2, i3, i4, i5⟩ := ih _ _ _ _ h
      rw [peek_machine] at i3 i4 i5
      refine ⟨by omega, by omega, i3, ?_, i5⟩
      intro j hj1 hj2
      by_cases hj : j = offset
      · subst hj
        exact fun hs => hne ((peek_sysenter K t.pid rip j s).mpr hs)
      · exact i4 j (by omega) hj2
    · rename_i hne
      simp only [Option.some.injEq, Prod.mk.injEq] at h
      obtain ⟨h1, h2⟩ := h
      subst h1
      rw [← h2]
      refine ⟨le_refl _, by omega, (peek_sysenter K t.pid rip offset s).mp (not_not.mp hne),
        fun j hj1 hj2 => by omega, peek_machine _ _ _ _⟩

/-- The scan ends as soon as its round budget reaches an offset that holds
`sysenter`. -/
theorem sysenter_scan_total (K : Kernel) (t : mytrace) (rip : Nat) :
    ∀ (k offset : Nat) (s : State) (o : Nat), offset ≤ o → o < offset + k →
      sysenter_at K t.pid s.m rip o →
      ∃ r, sysenter_scan K t rip k offset s = some r := by
  intro k
  induction k with
  | zero => intro offset s o h1 h2 _; omega
  | succ k ih =>
    intro offset s o h1 h2 hs
    simp only [sysenter_scan]
    split
    · rename_i hne
      have hoff : offset ≠ o := by
        intro he
        subst he
        exact hne ((peek_sysenter K t.pid rip offset s).mpr hs)
      exact ih (offset + 1) _ o (by omega) (by omega) (by rw [peek_machine]; exact hs)
    · exact ⟨_, rfl⟩

theorem low16_vsyscall (mem : Nat → Byte) (a : Nat) (h : mem a = 0xEB ∧ mem (a + 1) = 0xF3) :
    low16 (readWord mem a) = SYSCALL_X86_NEW := by
  simp only [low16, readWord, Nat.add_zero, h.1, h.2]
  decide

/-- C13 (as stated, refuted). In the vsyscall page `sysenter` lies eleven
bytes below the stop address `0x1000`: the scan peeks at every offset from 2
to 11 (addresses `0xFFE` down to `0xFF5`), the odd ones included, records the
odd offset 11, and the injected instruction pointer is `0x1000 - 11`. -/
theorem vsyscall_rewind_odd_offset :
    (sysenter_scan exKernel ⟨1, 0⟩ 0x1000 20 2 exVsyscall).map
        (fun r => (r.1, peekAddrs r.2.log))
      = some (11, [0xFF5, 0xFF6, 0xFF7, 0xFF8, 0xFF9, 0xFFA, 0xFFB, 0xFFC, 0xFFD, 0xFFE]) ∧
    11 % 2 = 1 ∧
    (install exKernel 20 ⟨1, 0⟩ MYCALL_IOCTL 3 4 5 exVsyscall).map
        (fun r => (r.2.m.proc 1).regs.rip) = some 0xFF5 := by
  decide

/-- C13 (amended). When the two bytes at `IP-2` are `EB F3`, `remote_syscall`
scans backward from `IP` one byte at a time (offsets 2, 3, 4, ...), peeking
two bytes at each offset, until they are the `sysenter` encoding `0F 34`; the
offset it records is the smallest one from 2 on at which `sysenter` is found
(it may be odd), the injected instruction pointer is `IP` minus that offset,
and the scan ends whenever such an offset lies within its round budget. -/
theorem vsyscall_rewind (K : Kernel) (fuel : Nat) (t : mytrace) (call a1 a2 a3 : Int)
    (s s2 : State) (o : Nat)
    (hget : K.err t.pid Request.GETREGS s.m = 0)
    (hpeek : K.err t.pid
      (Request.PEEKTEXT (((s.m.proc t.pid).regs.rip + 2 ^ 64 - 2) % 2 ^ 64)) s.m = 0)
    (hbytes : (s.m.proc t.pid).mem (((s.m.proc t.pid).regs.rip + 2 ^ 64 - 2) % 2 ^ 64) = 0xEB ∧
      (s.m.proc t.pid).mem (((s.m.proc t.pid).regs.rip + 2 ^ 64 - 2) % 2 ^ 64 + 1) = 0xF3)
    (hset : ∀ r, K.err t.pid (Request.SETREGS r) s.m = 0)
    (hscan : sysenter_scan K t (s.m.proc t.pid).regs.rip (fuel + 1) 2
      { m := s.m, errno := 0,
        log := (t.pid, Request.PEEKTEXT (((s.m.proc t.pid).regs.rip + 2 ^ 64 - 2) % 2 ^ 64))
          :: (t.pid, Request.GETREGS) :: s.log,
        msgs := s.msgs } = some (o, s2)) :
    2 ≤ o ∧ sysenter_at K t.pid s.m (s.m.proc t.pid).regs.rip o ∧
    (∀ j, 2 ≤ j → j < o → ¬ sysenter_at K t.pid s.m (s.m.proc t.pid).regs.rip j) ∧
    (∃ s3, install K (fuel + 1) t call a1 a2 a3 s
        = some (some { (s.m.proc t.pid).regs with rbp := (s.m.proc t.pid).regs.rsp }, s3) ∧
      (s3.m.proc t.pid).regs.rip = ((s.m.proc t.pid).regs.rip + 2 ^ 64 - o) % 2 ^ 64) ∧
    (∀ j, 2 ≤ j → j < 2 + (fuel + 1) → sysenter_at K t.pid s.m (s.m.proc t.pid).regs.rip j →
      ∃ r, sysenter_scan K t (s.m.proc t.pid).regs.rip (fuel + 1) 2
        { m := s.m, errno := 0,
          log := (t.pid, Request.PEEKTEXT (((s.m.proc t.pid).regs.rip + 2 ^ 64 - 2) % 2 ^ 64))
            :: (t.pid, Request.GETREGS) :: s.log,
          msgs := s.msgs } = some r) := by
  obtain ⟨i1, _, i3, i4, i5⟩ := sysenter_scan_found K t _ _ _ _ _ _ hscan
  have hset2 : ∀ r, K.err t.pid (Request.SETREGS r) s2.m = 0 := by
    intro r
    rw [i5]
    exact hset r
  have e1 : ¬ SYSCALL_X86_NEW = SYSCALL_AMD64 := by decide
  refine ⟨i1, i3, i4, ?_, ?_⟩
  · simp only [install, resync, ptrace_getregs, hget, if_true, ptrace_peektext, hpeek,
      low16_vsyscall _ _ hbytes, e1, if_false, or_true, hscan, ptrace_setregs, hset2]
    exact ⟨_, rfl, by simp [Machine.setRegs, injection]⟩
  · intro j hj1 hj2 hs
    exact sysenter_scan_total K t _ _ _ _ j hj1 hj2 hs

/-- The vsyscall page of `exVsyscall`: the recorded offset is 11 and the
injected instruction pointer `0x1000 - 11`. -/
theorem vsyscall_rewind_witness :
    2 ≤ 11 ∧ sysenter_at exKernel 1 exVsyscall.m 0x1000 11 ∧
    (∀ j, 2 ≤ j → j < 11 → ¬ sysenter_at exKernel 1 exVsyscall.m 0x1000 j) ∧
    ∃ s3, install exKernel 20 ⟨1, 0⟩ MYCALL_IOCTL 3 4 5 exVsyscall
        = some (some { exRegs with rbp := 0x7003 }, s3) ∧
      (s3.m.proc 1).regs.rip = (0x1000 + 2 ^ 64 - 11) % 2 ^ 64 :=
  ⟨(vsyscall_rewind exKernel 19 ⟨1, 0⟩ MYCALL_IOCTL 3 4 5 exVsyscall exScanned 11 rfl rfl
      (by decide) (fun _ => rfl) rfl).1,
    (vsyscall_rewind exKernel 19 ⟨1, 0⟩ MYCALL_IOCTL 3 4 5 exVsyscall exScanned 11 rfl rfl
      (by decide) (fun _ => rfl) rfl).2.1,
    (vsyscall_rewind exKernel 19 ⟨1, 0⟩ MYCALL_IOCTL 3 4 5 exVsyscall exScanned 11 rfl rfl
      (by decide) (fun _ => rfl) rfl).2.2.1,
    (vsyscall_rewind exKernel 19 ⟨1, 0⟩ MYCALL_IOCTL 3 4 5 exVsyscall exScanned 11 rfl rfl
      (by decide) (fun _ => rfl) rfl).2.2.2.1⟩

/-! ## C14: the return code of `ptsname_list_all` -/

/-- The register set `remote_syscall` keeps for the restore when the target is
found stopped after a system-call instruction at once: the registers read,
with the frame pointer replaced by the stack pointer in the `EB F3` case. -/
theorem install_keeps (K : Kernel) (fuel : Nat) (t : mytrace) (call a1 a2 a3 : Int)
    (s s3 : State) (old : user_regs_struct)
    (hget : K.err t.pid Request.GETREGS s.m = 0)
    (hpeek : K.err t.pid
      (Request.PEEKTEXT (((s.m.proc t.pid).regs.rip + 2 ^ 64 - 2) % 2 ^ 64)) s.m = 0)
    (hi : install K fuel t call a1 a2 a3 s = some (some old, s3)) :
    (low16 (readWord (s.m.proc t.pid).mem (((s.m.proc t.pid).regs.rip + 2 ^ 64 - 2) % 2 ^ 64))
        = SYSCALL_AMD64 ∨
      low16 (readWord (s.m.proc t.pid).mem (((s.m.proc t.pid).regs.rip + 2 ^ 64 - 2) % 2 ^ 64))
        = SYSCALL_X86 → old = (s.m.proc t.pid).regs) ∧
    (low16 (readWord (s.m.proc t.pid).mem (((s.m.proc t.pid).regs.rip + 2 ^ 64 - 2) % 2 ^ 64))
        = SYSCALL_X86_NEW →
      old = { (s.m.proc t.pid).regs with rbp := (s.m.proc t.pid).regs.rsp }) := by
  have e1 : ¬ SYSCALL_AMD64 = SYSCALL_X86_NEW := by decide
  have e2 : ¬ SYSCALL_X86 = SYSCALL_AMD64 := by decide
  have e3 : ¬ SYSCALL_X86 = SYSCALL_X86_NEW := by decide
  have e4 : ¬ SYSCALL_X86_NEW = SYSCALL_AMD64 := by decide
  cases fuel with
  | zero => simp [install, resync] at hi
  | succ n =>
    constructor
    · intro h
      rcases h with h | h
      · simp only [install, resync, ptrace_getregs, hget, if_true, ptrace_peektext, hpeek, h,
          e1, if_false] at hi
        split at hi <;>
        · simp only [Option.some.injEq, Prod.mk.injEq, reduceCtorEq, false_and] at hi
          try exact hi.1.symm
      · simp only [install, resync, ptrace_getregs, hget, if_true, ptrace_peektext, hpeek, h,
          e2, e3, if_false, true_or] at hi
        split at hi <;>
        · simp only [Option.some.injEq, Prod.mk.injEq, reduceCtorEq, false_and] at hi
          try exact hi.1.symm
    · intro h
      simp only [install, resync, ptrace_getregs, hget, if_true, ptrace_peektext, hpeek, h,
        e4, if_false, or_true] at hi
      split at hi
      · simp at hi
      · rename_i offset old1 s2 hsc
        split at hsc
        · simp at hsc
        · simp only [Option.some.injEq, Prod.mk.injEq] at hsc
          split at hi <;>
          · simp only [Option.some.injEq, Prod.mk.injEq, reduceCtorEq, false_and] at hi
            try exact hi.1.symm.trans hsc.2.1.symm

theorem low16_cases (mem : Nat → Byte) (a : Nat) :
    (mem a = 0x0F ∧ mem (a + 1) = 0x05 → low16 (readWord mem a) = SYSCALL_AMD64) ∧
    (mem a = 0xCD ∧ mem (a + 1) = 0x80 → low16 (readWord mem a) = SYSCALL_X86) ∧
    (mem a = 0xEB ∧ mem (a + 1) = 0xF3 → low16 (readWord mem a) = SYSCALL_X86_NEW) :=
  ⟨low16_syscall mem a, low16_int80 mem a, low16_vsyscall mem a⟩

/-- C3 (amended). Register transparency: whenever the target is found stopped
after one of the three encodings (`0F 05`, `CD 80`, `EB F3`), the single-step
loop ends on a plain trap and the registers are read and written back, the
last register set written to the target, which then is the target's register
file, equals the register set read at the start of the call in every
register, except that in the `EB F3` case its frame pointer holds the
stack-pointer value. -/
theorem register_transparency (K : Kernel) (fuel : Nat) (t t1 : mytrace) (call a1 a2 a3 : Int)
    (s s3 s4 : State) (old : user_regs_struct)
    (hcall : 0 ≤ call ∧ call < 11)
    (hget : K.err t.pid Request.GETREGS s.m = 0)
    (hpeek : K.err t.pid
      (Request.PEEKTEXT (((s.m.proc t.pid).regs.rip + 2 ^ 64 - 2) % 2 ^ 64)) s.m = 0)
    (hi : install K fuel t call a1 a2 a3 s = some (some old, s3))
    (hl : singlestep_loop K fuel t s3 = some (StepEnd.trapped, t1, s4))
    (hget2 : K.err t1.pid Request.GETREGS s4.m = 0)
    (hset2 : K.err t1.pid (Request.SETREGS old) s4.m = 0) :
    (∃ v s5, remote_syscall K fuel t call a1 a2 a3 s = some (v, t1, s5) ∧
      lastSetregs s5.log = some old ∧ (s5.m.proc t1.pid).regs = old) ∧
    (((s.m.proc t.pid).mem (((s.m.proc t.pid).regs.rip + 2 ^ 64 - 2) % 2 ^ 64) = 0x0F ∧
        (s.m.proc t.pid).mem (((s.m.proc t.pid).regs.rip + 2 ^ 64 - 2) % 2 ^ 64 + 1) = 0x05) ∨
      ((s.m.proc t.pid).mem (((s.m.proc t.pid).regs.rip + 2 ^ 64 - 2) % 2 ^ 64) = 0xCD ∧
        (s.m.proc t.pid).mem (((s.m.proc t.pid).regs.rip + 2 ^ 64 - 2) % 2 ^ 64 + 1) = 0x80) →
      old = (s.m.proc t.pid).regs) ∧
    ((s.m.proc t.pid).mem (((s.m.proc t.pid).regs.rip + 2 ^ 64 - 2) % 2 ^ 64) = 0xEB ∧
        (s.m.proc t.pid).mem (((s.m.proc t.pid).regs.rip + 2 ^ 64 - 2) % 2 ^ 64 + 1) = 0xF3 →
      old = { (s.m.proc t.pid).regs with rbp := (s.m.proc t.pid).regs.rsp }) := by
  have hc : ¬ (call < 0 ∨ call ≥ (syscallnames.length : Int)) := by
    simp only [syscallnames, List.length_cons, List.length_nil]
    omega
  obtain ⟨k1, k2⟩ := install_keeps K fuel t call a1 a2 a3 s s3 old hget hpeek hi
  obtain ⟨c1, c2, c3⟩ := low16_cases (s.m.proc t.pid).mem
    (((s.m.proc t.pid).regs.rip + 2 ^ 64 - 2) % 2 ^ 64)
  refine ⟨?_, ?_, fun h => k2 (c3 h)⟩
  · refine ⟨(capture K t1 old s4).1, (capture K t1 old s4).2, ?_, ?_, ?_⟩
    · simp only [remote_syscall, hc, if_false, hi, hl]
    · simp only [capture, ptrace_getregs, hget2, if_true, ptrace_setregs, hset2]
      split <;> rfl
    · simp only [capture, ptrace_getregs, hget2, if_true, ptrace_setregs, hset2]
      split <;> simp [Machine.setRegs]
  · intro h
    rcases h with h | h
    · exact k1 (Or.inl (c1 h))
    · exact k1 (Or.inr (c2 h))

/-- The vsyscall example: the set written back is the one read, but for the
frame pointer, which holds the stack pointer `0x7003`. -/
theorem register_transparency_witness :
    (∃ v s5, remote_syscall exKernel 20 ⟨1, 0⟩ MYCALL_IOCTL 3 4 5 exVsyscall
        = some (v, ⟨1, 0⟩, s5) ∧
      lastSetregs s5.log = some { exRegs with rbp := 0x7003 } ∧
      (s5.m.proc 1).regs = { exRegs with rbp := 0x7003 }) ∧
    ({ exRegs with rbp := 0x7003 } : user_regs_struct)
      = { (exVsyscall.m.proc 1).regs with rbp := (exVsyscall.m.proc 1).regs.rsp } :=
  ⟨(register_transparency exKernel 20 ⟨1, 0⟩ ⟨1, 0⟩ MYCALL_IOCTL 3 4 5 exVsyscall exVsInstalled
      exVsStepped { exRegs with rbp := 0x7003 } (by decide) rfl rfl rfl rfl rfl rfl).1,
    (register_transparency exKernel 20 ⟨1, 0⟩ ⟨1, 0⟩ MYCALL_IOCTL 3 4 5 exVsyscall exVsInstalled
      exVsStepped { exRegs with rbp := 0x7003 } (by decide) rfl rfl rfl rfl rfl rfl).2.2
      (by decide)⟩

end PtmxResolve
